import Mathlib

/-!
Verification of the nanobind value-marshalling core against its specification.

The development shallowly embeds the two source files of the repository:
the type-caster header (numeric / boolean / null / pair / handle casters, the
`rv_policy` enumeration, the generic fallback caster and the `NB_TYPE_CASTER`
macro) and `src/common.cpp` (error bridge, object-protocol shim functions and
`seq_size_fetch`).

The foreign runtime (CPython) is modelled by an explicit heap of
reference-counted objects together with the single pending-error flag.
CPython API calls used by the sources (`PyLong_AsLong`, `PyFloat_AsDouble`,
`PySequence_GetItem`, ...) are modelled as state transformers following the
documented behaviour of the C API; protocol calls whose outcome depends on
arbitrary user objects (`PyObject_GetAttr`, ...) are taken as oracle
parameters of the shim functions that wrap them.

Machine integers are modelled as `Int` with explicit wrap-around at the
relevant bit width; `sizeof(long)` is kept as a parameter `lsz` (4 on LLP64,
8 on LP64 platforms).  Floating-point values are modelled exactly as rational
numbers: every value of a C `float`/`double` is a dyadic rational, and none
of the operations performed by the sources on the round-trip paths round.
-/

set_option autoImplicit false

namespace NB

/-! ### The foreign runtime: objects, heap, pending error -/

/-- A foreign-runtime object value.  `vtuple` is a genuine tuple (as built by
`PyTuple_New`); `vseq` models an arbitrary user sequence object whose
`__len__` may fail (`size = none`) and whose item lookups may individually
fail (`get i = some none`). -/
inductive PyVal where
  | vint (n : ℤ)
  | vfloat (q : ℚ)
  | vbool (b : Bool)
  | vnone
  | vstr (s : List Char)
  | vtuple (items : List ℕ)
  | vseq (size : Option ℕ) (get : List (Option ℕ))
deriving DecidableEq, Repr

/-- A heap cell: an object value together with its reference count. -/
structure Obj where
  val : PyVal
  rc : ℕ
deriving DecidableEq, Repr

/-- The foreign-runtime state: the heap (address `a ≥ 1` denotes cell
`heap[a-1]`; address `0` is the null pointer) and the pending-error flag. -/
structure PyState where
  heap : List Obj
  err : Bool
deriving DecidableEq, Repr

/-- Address of the `Py_None` singleton. -/
def addrNone : ℕ := 1
/-- Address of the `Py_True` singleton. -/
def addrTrue : ℕ := 2
/-- Address of the `Py_False` singleton. -/
def addrFalse : ℕ := 3

def getObj (st : PyState) (a : ℕ) : Option Obj :=
  if a = 0 then none else st.heap.get? (a - 1)

def getVal (st : PyState) (a : ℕ) : Option PyVal :=
  (getObj st a).map Obj.val

/-- Reference count of the object at address `a` (0 for null / dangling). -/
def rcOf (st : PyState) (a : ℕ) : ℕ :=
  match getObj st a with
  | some o => o.rc
  | none => 0

/-- An address that denotes a live heap cell. -/
def live (st : PyState) (a : ℕ) : Prop :=
  a ≠ 0 ∧ a - 1 < st.heap.length

instance (st : PyState) (a : ℕ) : Decidable (live st a) := by
  unfold live; infer_instance

/-- `Py_INCREF`: no-op on null or dangling addresses (never produced by the
modelled API on a well-formed state). -/
def incref (st : PyState) (a : ℕ) : PyState :=
  match getObj st a with
  | some o => { st with heap := st.heap.set (a - 1) { o with rc := o.rc + 1 } }
  | none => st

/-- `Py_DECREF` (deallocation is not modelled; only counts matter here). -/
def decref (st : PyState) (a : ℕ) : PyState :=
  match getObj st a with
  | some o => { st with heap := st.heap.set (a - 1) { o with rc := o.rc - 1 } }
  | none => st

def seterr (st : PyState) : PyState := { st with err := true }

def clearerr (st : PyState) : PyState := { st with err := false }

/-- Allocate a fresh object with reference count 1, returning its address. -/
def alloc (st : PyState) (v : PyVal) : PyState × ℕ :=
  ({ st with heap := st.heap ++ [⟨v, 1⟩] }, st.heap.length + 1)

/-! ### `rv_policy` and the generic/opaque fallback caster -/

/-- The `rv_policy` enumeration from the caster header. -/
inductive rv_policy where
  | automatic
  | automatic_reference
  | take_ownership
  | copy
  | move
  | reference
  | reference_internal
deriving DecidableEq, Repr

/-- The arguments the generic fallback caster hands to the external type
registry (`detail::type_put`): the raw value pointer, the concrete policy and
the parent handle. -/
structure RegistryCall (α : Type) where
  value : α
  policy : rv_policy
  parent : ℕ
deriving DecidableEq, Repr

/-- `detail::type_put`: the external registry invocation, recorded as data. -/
def type_put {α : Type} (p : α) (policy : rv_policy) (parent : ℕ) :
    RegistryCall α :=
  ⟨p, policy, parent⟩

/-- `type_caster<T, SFINAE>::cast_impl`. -/
def cast_impl {α : Type} (p : α) (policy : rv_policy) (parent : ℕ) :
    RegistryCall α :=
  type_put p policy parent

/-- `type_caster<T, SFINAE>::cast(const T *p, ...)` — the pointer-shaped
overload of the generic fallback caster. -/
def genericCastPtr {α : Type} (p : α) (policy : rv_policy) (parent : ℕ) :
    RegistryCall α :=
  let policy' :=
    if policy = rv_policy.automatic then rv_policy.take_ownership
    else if policy = rv_policy.automatic_reference then rv_policy.reference
    else policy
  cast_impl p policy' parent

/-- `type_caster<T, SFINAE>::cast(const T &p, ...)` — the lvalue-shaped
overload. -/
def genericCastLvalue {α : Type} (p : α) (policy : rv_policy) (parent : ℕ) :
    RegistryCall α :=
  let policy' :=
    if policy = rv_policy.automatic ∨ policy = rv_policy.automatic_reference
    then rv_policy.copy else policy
  cast_impl p policy' parent

/-- `type_caster<T, SFINAE>::cast(const T &&p, ...)` — the rvalue-shaped
overload; the requested policy is ignored entirely. -/
def genericCastRvalue {α : Type} (p : α) (_policy : rv_policy) (parent : ℕ) :
    RegistryCall α :=
  cast_impl p rv_policy.move parent

/-- The shape of the native input handed to the generic caster's `cast`. -/
inductive InputShape where
  | pointerShape
  | lvalueShape
  | rvalueShape
deriving DecidableEq, Repr

/-- Modelled from the spec's words (for comparison with the code): the policy
normalization table claimed in §4.5 — `automatic` resolves per input shape,
`automatic_reference` resolves to `reference` (for every shape), and any
other policy is handed over unchanged. -/
def specPolicyTable (shape : InputShape) (p : rv_policy) : rv_policy :=
  match p with
  | rv_policy.automatic =>
      match shape with
      | InputShape.pointerShape => rv_policy.take_ownership
      | InputShape.lvalueShape => rv_policy.copy
      | InputShape.rvalueShape => rv_policy.move
  | rv_policy.automatic_reference => rv_policy.reference
  | q => q

/-- The generic caster's `cast` overload selected by the input shape. -/
def genericCastAt (shape : InputShape) {α : Type} (p : α)
    (policy : rv_policy) (parent : ℕ) : RegistryCall α :=
  match shape with
  | InputShape.pointerShape => genericCastPtr p policy parent
  | InputShape.lvalueShape => genericCastLvalue p policy parent
  | InputShape.rvalueShape => genericCastRvalue p policy parent

/-- C1, counterexample: for an lvalue-shaped input with starting policy
`automatic_reference`, the code hands `copy` to the registry while the
claimed table says `reference`. -/
theorem c1_policy_table_counterexample :
    (genericCastLvalue () rv_policy.automatic_reference 0).policy
      ≠ specPolicyTable InputShape.lvalueShape rv_policy.automatic_reference := by
  decide

/-- C1 (amended): the pointer-shaped overload resolves `automatic` to
`take_ownership` and `automatic_reference` to `reference`, passing every
other policy through unchanged; the lvalue-shaped overload resolves both
`automatic` and `automatic_reference` to `copy`, passing every other policy
through unchanged; the rvalue-shaped overload hands `move` to the registry
for every starting policy.  The value pointer and parent are forwarded
unchanged in all cases. -/
theorem c1_policy_table {α : Type} (p : α) (policy : rv_policy) (parent : ℕ) :
    (genericCastAt InputShape.pointerShape p policy parent =
      ⟨p, match policy with
          | rv_policy.automatic => rv_policy.take_ownership
          | rv_policy.automatic_reference => rv_policy.reference
          | q => q, parent⟩) ∧
    (genericCastAt InputShape.lvalueShape p policy parent =
      ⟨p, match policy with
          | rv_policy.automatic => rv_policy.copy
          | rv_policy.automatic_reference => rv_policy.copy
          | q => q, parent⟩) ∧
    (genericCastAt InputShape.rvalueShape p policy parent =
      ⟨p, rv_policy.move, parent⟩) := by
  refine ⟨?_, ?_, ?_⟩ <;> cases policy <;> rfl

/-! ### Dyadic rationals: the exact value spaces of C `float` and `double` -/

/-- Largest odd divisor, computed with explicit fuel (kernel-reducible). -/
def oddPartFuel : ℕ → ℕ → ℕ
  | 0, n => n
  | fuel + 1, n => if n % 2 = 0 ∧ n ≠ 0 then oddPartFuel fuel (n / 2) else n

/-- Largest odd divisor of a natural number (0 for 0). -/
def oddPart (n : ℕ) : ℕ := oddPartFuel n n

/-- Floor of the base-2 logarithm, with explicit fuel (kernel-reducible). -/
def nlog2Fuel : ℕ → ℕ → ℕ
  | 0, _ => 0
  | fuel + 1, n => if 2 ≤ n then nlog2Fuel fuel (n / 2) + 1 else 0

/-- Floor of the base-2 logarithm of a natural number (0 for 0 and 1). -/
def nlog2 (n : ℕ) : ℕ := nlog2Fuel n n

/-- `x` is exactly representable with a `p`-bit mantissa, denominator at most
`2^dmax` (smallest subnormal) and magnitude below `2^emax`. -/
def fitsFP (p dmax emax : ℕ) (x : ℚ) : Bool :=
  x.num = 0 ||
    (oddPart x.den == 1 &&
     nlog2 (oddPart x.num.natAbs) + 1 ≤ p &&
     x.den ≤ 2 ^ dmax &&
     x.num.natAbs < x.den * 2 ^ emax)

/-- Exactly representable as an IEEE-754 binary32 (`float`) value. -/
def fits24 (x : ℚ) : Bool := fitsFP 24 149 128 x

/-- Exactly representable as an IEEE-754 binary64 (`double`) value. -/
def fits53 (x : ℚ) : Bool := fitsFP 53 1074 1024 x

/-- `|x| ≥ 2^k`? (helper for the floor of the base-2 logarithm). -/
def qAbsGePow2 (x : ℚ) (k : ℤ) : Bool :=
  if 0 ≤ k then decide (x.den * 2 ^ k.toNat ≤ x.num.natAbs)
  else decide (x.den ≤ x.num.natAbs * 2 ^ (-k).toNat)

/-- `⌊log₂ |x|⌋` for `x ≠ 0` (arbitrary on 0). -/
def floorLog2 (x : ℚ) : ℤ :=
  let k : ℤ := (nlog2 x.num.natAbs : ℤ) - (nlog2 x.den : ℤ)
  if qAbsGePow2 x (k + 1) then k + 1
  else if qAbsGePow2 x k then k else k - 1

/-- Round a rational to the nearest integer, ties to even. -/
def roundHalfEven (x : ℚ) : ℤ :=
  let f := Rat.floor x
  let r := x - (f : ℚ)
  if r < 1 / 2 then f
  else if 1 / 2 < r then f + 1
  else if f % 2 = 0 then f else f + 1

/-- Round a rational to a `p`-bit mantissa (nearest, ties to even). -/
def roundToPrec (p : ℕ) (x : ℚ) : ℚ :=
  if x = 0 then 0
  else
    let e : ℤ := floorLog2 x - ((p : ℤ) - 1)
    ((roundHalfEven (x * (2 : ℚ) ^ (-e)) : ℚ)) * (2 : ℚ) ^ e

/-- The C conversion `(double)` applied to an exact value: the identity on
values already representable as a `double`, rounding otherwise. -/
def toDouble (q : ℚ) : ℚ := if fits53 q then q else roundToPrec 53 q

/-- The C conversion `(float)` applied to a `double` value: the identity on
values exactly representable as a `float` (C11 6.3.1.5), rounding
otherwise. -/
def toFloat32 (q : ℚ) : ℚ := if fits24 q then q else roundToPrec 24 q

/-! ### Machine integers -/

/-- C cast of an integer to an unsigned type of `sz` bytes (wrap mod `2^8sz`). -/
def wrapU (sz : ℕ) (v : ℤ) : ℤ := v % 2 ^ (8 * sz)

/-- C cast of an integer to a signed type of `sz` bytes (two's-complement
wrap, the behaviour of every supported implementation). -/
def wrapS (sz : ℕ) (v : ℤ) : ℤ :=
  (v + 2 ^ (8 * sz - 1)) % 2 ^ (8 * sz) - 2 ^ (8 * sz - 1)

/-- C cast `(T)` for the integer type of `sz` bytes and signedness `sgn`. -/
def convInt (sz : ℕ) (sgn : Bool) (v : ℤ) : ℤ :=
  if sgn then wrapS sz v else wrapU sz v

/-- `v` is a value of the integer type of `sz` bytes and signedness `sgn`. -/
def intInRange (sz : ℕ) (sgn : Bool) (v : ℤ) : Bool :=
  if sgn then
    decide (-(2 ^ (8 * sz - 1)) ≤ v) && decide (v < 2 ^ (8 * sz - 1))
  else
    decide (0 ≤ v) && decide (v < 2 ^ (8 * sz))

/-- `sizeof(Tp)`: the intermediate width chosen by the numeric caster —
`long` (`lsz` bytes) when `sizeof(T) <= sizeof(long)`, else `long long`. -/
def tpBytes (sz lsz : ℕ) : ℕ := if sz ≤ lsz then lsz else 8

/-- `Tp(-1)`: the in-band error return value of the CPython conversion
functions, seen at the intermediate type. -/
def tpNegOne (sgn : Bool) (w : ℕ) : ℤ :=
  if sgn then -1 else 2 ^ (8 * w) - 1

/-! ### CPython numeric API -/

/-- `PyLong_Check` (booleans are a Python `int` subtype). -/
def pyLong_Check (st : PyState) (a : ℕ) : Bool :=
  match getVal st a with
  | some (PyVal.vint _) => true
  | some (PyVal.vbool _) => true
  | _ => false

/-- `PyFloat_Check`. -/
def pyFloat_Check (st : PyState) (a : ℕ) : Bool :=
  match getVal st a with
  | some (PyVal.vfloat _) => true
  | _ => false

/-- `PyLong_AsLong` / `PyLong_AsLongLong` at width `w` bytes: the value if it
fits the signed `w`-byte range, else `-1` with `OverflowError` pending; on a
non-index object, `-1` with `TypeError` pending. -/
def pyLong_AsSigned (w : ℕ) (st : PyState) (a : ℕ) : ℤ × PyState :=
  match getVal st a with
  | some (PyVal.vint n) =>
      if -(2 ^ (8 * w - 1)) ≤ n ∧ n < 2 ^ (8 * w - 1) then (n, st)
      else (-1, seterr st)
  | some (PyVal.vbool b) => (if b then 1 else 0, st)
  | _ => (-1, seterr st)

/-- `PyLong_AsUnsignedLong` / `PyLong_AsUnsignedLongLong` at width `w` bytes:
the value if it fits `[0, 2^8w)`, else `(unsigned)-1` with an error
pending. -/
def pyLong_AsUnsigned (w : ℕ) (st : PyState) (a : ℕ) : ℤ × PyState :=
  match getVal st a with
  | some (PyVal.vint n) =>
      if 0 ≤ n ∧ n < 2 ^ (8 * w) then (n, st)
      else (2 ^ (8 * w) - 1, seterr st)
  | some (PyVal.vbool b) => (if b then 1 else 0, st)
  | _ => (2 ^ (8 * w) - 1, seterr st)

/-- `PyFloat_AsDouble`: exact on a Python `float`; rounds a Python `int` to
`double` (`OverflowError` beyond `2^1024`); `-1.0` with `TypeError` pending
otherwise. -/
def pyFloat_AsDouble (st : PyState) (a : ℕ) : ℚ × PyState :=
  match getVal st a with
  | some (PyVal.vfloat q) => (q, st)
  | some (PyVal.vint n) =>
      if n.natAbs < 2 ^ 1024 then (toDouble (n : ℚ), st) else (-1, seterr st)
  | some (PyVal.vbool b) => (if b then 1 else 0, st)
  | _ => (-1, seterr st)

/-! ### The numeric caster (`type_caster<T, is_arithmetic>`) -/

/-- The part of the integer `load` after the conversion call: the
narrow-and-rewiden overflow check (active only when the intermediate width
`w` differs from the target width), then the in-band error check. -/
def numLoadIntBody (sz : ℕ) (sgn : Bool) (w : ℕ) (vp : ℤ × PyState) :
    Option ℤ × PyState :=
  if w ≠ sz ∧ convInt sz sgn vp.1 ≠ vp.1 then (none, vp.2)
  else if vp.1 = tpNegOne sgn w ∧ vp.2.err then (none, clearerr vp.2)
  else (some (convInt sz sgn vp.1), vp.2)

/-- `type_caster<T>::load` for an integer type `T` of `sz` bytes and
signedness `sgn` on a platform with `sizeof(long) = lsz`.  Returns the
loaded native value slot (`none` = load failure) and the resulting runtime
state. -/
def numLoadInt (sz : ℕ) (sgn : Bool) (lsz : ℕ) (src : ℕ) (convert : Bool)
    (st : PyState) : Option ℤ × PyState :=
  if src = 0 then (none, st)
  else if ¬convert ∧ ¬pyLong_Check st src then (none, st)
  else
    numLoadIntBody sz sgn (tpBytes sz lsz)
      (if sgn then pyLong_AsSigned (tpBytes sz lsz) st src
       else pyLong_AsUnsigned (tpBytes sz lsz) st src)

/-- `type_caster<T>::load` for a floating-point type `T` (`isDouble` selects
`double` vs `float`). -/
def numLoadFlt (isDouble : Bool) (src : ℕ) (convert : Bool)
    (st : PyState) : Option ℚ × PyState :=
  if src = 0 then (none, st)
  else if ¬convert ∧ ¬pyFloat_Check st src then (none, st)
  else
    let vp := pyFloat_AsDouble st src
    if vp.1 = -1 ∧ vp.2.err then (none, clearerr vp.2)
    else (some (if isDouble then vp.1 else toFloat32 vp.1), vp.2)

/-- `type_caster<T>::cast` for an integer type: build a Python `int` from the
value converted to `long` / `long long` per the source's width selection. -/
def numCastInt (sz : ℕ) (sgn : Bool) (lsz : ℕ) (v : ℤ) (st : PyState) :
    PyState × ℕ :=
  if ¬sgn ∧ sz ≤ lsz then alloc st (PyVal.vint (wrapU lsz v))
  else if sgn ∧ sz ≤ lsz then alloc st (PyVal.vint (wrapS lsz v))
  else if ¬sgn then alloc st (PyVal.vint (wrapU 8 v))
  else alloc st (PyVal.vint (wrapS 8 v))

/-- `type_caster<T>::cast` for a floating-point type:
`PyFloat_FromDouble((double) src)` — exact, since every `float` value is a
`double` value. -/
def numCastFlt (q : ℚ) (st : PyState) : PyState × ℕ :=
  alloc st (PyVal.vfloat q)

/-! ### Arithmetic lemmas about wrapping and ranges -/

lemma two_pow_le_two_pow {a b : ℕ} (h : a ≤ b) : (2 : ℤ) ^ a ≤ 2 ^ b :=
  pow_le_pow_right₀ (by norm_num) h

lemma intInRange_true_iff {sz : ℕ} {sgn : Bool} {v : ℤ} :
    intInRange sz sgn v = true ↔
      (if sgn then -(2 ^ (8 * sz - 1)) ≤ v ∧ v < 2 ^ (8 * sz - 1)
       else 0 ≤ v ∧ v < 2 ^ (8 * sz)) := by
  cases sgn <;> simp [intInRange]

lemma intInRange_mono {sz w : ℕ} {sgn : Bool} {v : ℤ} (h : sz ≤ w)
    (hr : intInRange sz sgn v = true) : intInRange w sgn v = true := by
  rw [intInRange_true_iff] at hr ⊢
  cases sgn
  · simp only [if_neg Bool.false_ne_true] at hr ⊢
    exact ⟨hr.1, lt_of_lt_of_le hr.2 (two_pow_le_two_pow (by omega))⟩
  · simp only [if_pos rfl] at hr ⊢
    refine ⟨le_trans (neg_le_neg (two_pow_le_two_pow (by omega))) hr.1, ?_⟩
    exact lt_of_lt_of_le hr.2 (two_pow_le_two_pow (by omega))

lemma wrapU_eq_self {sz : ℕ} {v : ℤ} (h0 : 0 ≤ v) (h1 : v < 2 ^ (8 * sz)) :
    wrapU sz v = v :=
  Int.emod_eq_of_lt h0 h1

lemma two_pow_split {sz : ℕ} (hsz : 1 ≤ sz) :
    (2 : ℤ) ^ (8 * sz) = 2 ^ (8 * sz - 1) * 2 := by
  rw [← pow_succ]
  congr 1
  omega

lemma wrapS_eq_self {sz : ℕ} {v : ℤ} (hsz : 1 ≤ sz)
    (h0 : -(2 ^ (8 * sz - 1)) ≤ v) (h1 : v < 2 ^ (8 * sz - 1)) :
    wrapS sz v = v := by
  unfold wrapS
  have hp := @two_pow_split sz hsz
  have h2 : (0 : ℤ) ≤ v + 2 ^ (8 * sz - 1) := by linarith
  have h3 : v + 2 ^ (8 * sz - 1) < 2 ^ (8 * sz) := by rw [hp]; linarith
  rw [Int.emod_eq_of_lt h2 h3]
  ring

lemma convInt_eq_self {sz : ℕ} {sgn : Bool} {v : ℤ} (hsz : 1 ≤ sz)
    (h : intInRange sz sgn v = true) : convInt sz sgn v = v := by
  rw [intInRange_true_iff] at h
  cases sgn
  · simp only [if_neg Bool.false_ne_true] at h
    simpa [convInt] using wrapU_eq_self h.1 h.2
  · simp only [if_pos rfl] at h
    simpa [convInt] using wrapS_eq_self hsz h.1 h.2

lemma convInt_in_range {sz : ℕ} {sgn : Bool} (v : ℤ) (hsz : 1 ≤ sz) :
    intInRange sz sgn (convInt sz sgn v) = true := by
  rw [intInRange_true_iff]
  have hpos : (0 : ℤ) < 2 ^ (8 * sz) := pow_pos (by norm_num) _
  cases sgn
  · simp only [if_neg Bool.false_ne_true, convInt, Bool.false_eq_true, wrapU]
    exact ⟨Int.emod_nonneg v (ne_of_gt hpos), Int.emod_lt_of_pos v hpos⟩
  · simp only [if_pos rfl, convInt, if_pos, wrapS]
    have hp := @two_pow_split sz hsz
    have h1 := Int.emod_nonneg (v + 2 ^ (8 * sz - 1)) (ne_of_gt hpos)
    have h2 := Int.emod_lt_of_pos (v + 2 ^ (8 * sz - 1)) hpos
    constructor <;> [linarith; linarith [hp ▸ h2]]

lemma convInt_eq_self_iff {sz : ℕ} {sgn : Bool} {v : ℤ} (hsz : 1 ≤ sz) :
    convInt sz sgn v = v ↔ intInRange sz sgn v = true := by
  constructor
  · intro h
    have := @convInt_in_range sz sgn v hsz
    rwa [h] at this
  · exact convInt_eq_self hsz

lemma le_tpBytes {sz lsz : ℕ} (hsz8 : sz ≤ 8) : sz ≤ tpBytes sz lsz := by
  unfold tpBytes
  split <;> omega

/-! ### Heap access lemmas -/

lemma list_get?_concat (l : List Obj) (a : Obj) :
    (l ++ [a]).get? l.length = some a := by
  induction l with
  | nil => rfl
  | cons x xs ih => simp

lemma getVal_alloc (st : PyState) (v : PyVal) :
    getVal (alloc st v).1 (alloc st v).2 = some v := by
  simp [getVal, getObj, alloc, list_get?_concat]

lemma alloc_err (st : PyState) (v : PyVal) : (alloc st v).1.err = st.err := rfl

lemma alloc_addr_ne_zero (st : PyState) (v : PyVal) : (alloc st v).2 ≠ 0 := by
  simp [alloc]

lemma getVal_zero (st : PyState) : getVal st 0 = none := by
  simp [getVal, getObj]

/-! ### Behaviour of the numeric caster -/

lemma numCastInt_spec {sz lsz : ℕ} {sgn : Bool} {v : ℤ} (st : PyState)
    (hsz1 : 1 ≤ sz) (hsz8 : sz ≤ 8) (hr : intInRange sz sgn v = true) :
    numCastInt sz sgn lsz v st = alloc st (PyVal.vint v) := by
  cases sgn
  · by_cases hl : sz ≤ lsz
    · have hrw := intInRange_mono hl hr
      rw [intInRange_true_iff, if_neg Bool.false_ne_true] at hrw
      simp [numCastInt, hl, wrapU_eq_self hrw.1 hrw.2]
    · have hrw := intInRange_mono hsz8 hr
      rw [intInRange_true_iff, if_neg Bool.false_ne_true] at hrw
      simp [numCastInt, hl, wrapU_eq_self hrw.1 hrw.2]
  · by_cases hl : sz ≤ lsz
    · have hrw := intInRange_mono hl hr
      rw [intInRange_true_iff, if_pos rfl] at hrw
      simp [numCastInt, hl, wrapS_eq_self (le_trans hsz1 hl) hrw.1 hrw.2]
    · have hrw := intInRange_mono hsz8 hr
      rw [intInRange_true_iff, if_pos rfl] at hrw
      simp [numCastInt, hl, wrapS_eq_self (by norm_num : 1 ≤ 8) hrw.1 hrw.2]

lemma numLoadInt_success {sz lsz : ℕ} {sgn : Bool} {a : ℕ} {n : ℤ}
    {st : PyState} (convert : Bool) (hsz1 : 1 ≤ sz) (hsz8 : sz ≤ 8)
    (ha : getVal st a = some (PyVal.vint n)) (herr : st.err = false)
    (hr : intInRange sz sgn n = true) :
    numLoadInt sz sgn lsz a convert st = (some n, st) := by
  have ha0 : a ≠ 0 := by
    intro h
    rw [h, getVal_zero] at ha
    exact Option.noConfusion ha
  have hrw : intInRange (tpBytes sz lsz) sgn n = true :=
    intInRange_mono (le_tpBytes hsz8) hr
  rw [intInRange_true_iff] at hrw
  have hvp : (if sgn then pyLong_AsSigned (tpBytes sz lsz) st a
              else pyLong_AsUnsigned (tpBytes sz lsz) st a) = (n, st) := by
    cases sgn
    · simp only [if_neg Bool.false_ne_true] at hrw ⊢
      simp [pyLong_AsUnsigned, ha, hrw.1, hrw.2]
    · simp only [if_pos rfl] at hrw ⊢
      simp [pyLong_AsSigned, ha, hrw.1, hrw.2]
  unfold numLoadInt
  rw [if_neg ha0]
  have hchk : pyLong_Check st a = true := by simp [pyLong_Check, ha]
  rw [if_neg (by simp [hchk]), hvp]
  unfold numLoadIntBody
  rw [if_neg (by simp [convInt_eq_self hsz1 hr]), if_neg (by simp [herr]),
    convInt_eq_self hsz1 hr]

/-- C2: for every fixed-width numeric type and every value of that type,
casting to a foreign object with the numeric caster and loading the result
back through the same caster succeeds and reproduces the value exactly.
Integer types are any signedness and size 1/2/4/8 on a platform with
`sizeof(long)` 4 or 8; floating-point types are `double` and `float`, whose
values are exactly the dyadic rationals accepted by `fits53`/`fits24`. -/
theorem c2_numeric_round_trip :
    (∀ (sz : ℕ) (sgn : Bool) (lsz : ℕ) (v : ℤ) (convert : Bool) (st : PyState),
      sz = 1 ∨ sz = 2 ∨ sz = 4 ∨ sz = 8 → lsz = 4 ∨ lsz = 8 →
      intInRange sz sgn v = true → st.err = false →
      (numLoadInt sz sgn lsz (numCastInt sz sgn lsz v st).2 convert
        (numCastInt sz sgn lsz v st).1).1 = some v) ∧
    (∀ (isDouble : Bool) (q : ℚ) (convert : Bool) (st : PyState),
      (if isDouble then fits53 q else fits24 q) = true → st.err = false →
      (numLoadFlt isDouble (numCastFlt q st).2 convert
        (numCastFlt q st).1).1 = some q) := by
  constructor
  · intro sz sgn lsz v convert st hsz hlsz hr herr
    have hsz1 : 1 ≤ sz := by rcases hsz with h | h | h | h <;> omega
    have hsz8 : sz ≤ 8 := by rcases hsz with h | h | h | h <;> omega
    rw [numCastInt_spec st hsz1 hsz8 hr]
    rw [numLoadInt_success convert hsz1 hsz8 (getVal_alloc st _)
      (by rw [alloc_err]; exact herr) hr]
  · intro isDouble q convert st hfit herr
    have hget : getVal (numCastFlt q st).1 (numCastFlt q st).2 =
        some (PyVal.vfloat q) := getVal_alloc st _
    have ha0 : (numCastFlt q st).2 ≠ 0 := alloc_addr_ne_zero st _
    unfold numLoadFlt
    rw [if_neg ha0]
    have hchk : pyFloat_Check (numCastFlt q st).1 (numCastFlt q st).2 = true := by
      simp [pyFloat_Check, hget]
    rw [if_neg (by simp [hchk])]
    have hvp : pyFloat_AsDouble (numCastFlt q st).1 (numCastFlt q st).2 =
        (q, (numCastFlt q st).1) := by
      simp [pyFloat_AsDouble, hget]
    simp only [hvp]
    have herr1 : (numCastFlt q st).1.err = false := by
      rw [show (numCastFlt q st).1 = (alloc st (PyVal.vfloat q)).1 from rfl,
        alloc_err]
      exact herr
    rw [if_neg (by simp [herr1])]
    cases isDouble
    · simp only [if_neg Bool.false_ne_true] at hfit
      simp [toFloat32, hfit]
    · simp

/-- C3: in the integer branch of the numeric caster's `load`, when the
intermediate width differs from the target width, the widened value `vp.1`
is narrowed to the target type, re-widened and compared to the original;
whenever this narrow-and-rewiden round trip fails, `load` returns failure
(no silent truncation), and whenever it succeeds (and the conversion call
raised no error) `load` succeeds, storing exactly the widened value. -/
theorem c3_narrowing_check (sz : ℕ) (sgn : Bool) (lsz : ℕ) (src : ℕ) (n : ℤ)
    (convert : Bool) (st : PyState) (vp : ℤ × PyState)
    (hsrc : getVal st src = some (PyVal.vint n))
    (hne : tpBytes sz lsz ≠ sz)
    (hvp : vp = if sgn then pyLong_AsSigned (tpBytes sz lsz) st src
                else pyLong_AsUnsigned (tpBytes sz lsz) st src) :
    (convInt sz sgn vp.1 ≠ vp.1 →
      (numLoadInt sz sgn lsz src convert st).1 = none) ∧
    (convInt sz sgn vp.1 = vp.1 → vp.2.err = false →
      numLoadInt sz sgn lsz src convert st = (some vp.1, vp.2)) := by
  have hsrc0 : src ≠ 0 := by
    intro h
    rw [h, getVal_zero] at hsrc
    exact Option.noConfusion hsrc
  have hchk : pyLong_Check st src = true := by simp [pyLong_Check, hsrc]
  constructor
  · intro hconv
    unfold numLoadInt numLoadIntBody
    rw [if_neg hsrc0, if_neg (by simp [hchk]), ← hvp,
      if_pos ⟨hne, hconv⟩]
  · intro hconv herr
    unfold numLoadInt numLoadIntBody
    rw [if_neg hsrc0, if_neg (by simp [hchk]), ← hvp,
      if_neg (by simp [hconv]), if_neg (by simp [herr]), hconv]

/-- A state holding the three singletons followed by the Python ints `300`
and `7`, no pending error. -/
def stInts : PyState :=
  ⟨[⟨PyVal.vnone, 1⟩, ⟨PyVal.vbool true, 1⟩, ⟨PyVal.vbool false, 1⟩,
    ⟨PyVal.vint 300, 1⟩, ⟨PyVal.vint 7, 1⟩], false⟩

/-- C3, witness: loading Python int `300` into `int8_t` fails the
narrow-and-rewiden check, and loading Python int `7` into `int8_t`
succeeds with exactly `7`. -/
theorem c3_narrowing_check_witness :
    (numLoadInt 1 true 8 4 true stInts).1 = none ∧
    numLoadInt 1 true 8 5 true stInts = (some 7, stInts) :=
  ⟨(c3_narrowing_check 1 true 8 4 300 true stInts (300, stInts) (by decide)
      (by decide) (by decide)).1 (by decide),
   (c3_narrowing_check 1 true 8 5 7 true stInts (7, stInts) (by decide)
      (by decide) (by decide)).2 (by decide) rfl⟩

/-- The failing state for C6: the singletons followed by the Python int
`-1`, no pending error. -/
def stC6 : PyState :=
  ⟨[⟨PyVal.vnone, 1⟩, ⟨PyVal.vbool true, 1⟩, ⟨PyVal.vbool false, 1⟩,
    ⟨PyVal.vint (-1), 1⟩], false⟩

/-- C6, evaluation at the failing input: loading the Python int `-1` into
`uint8_t` (unsigned, 1 byte, `sizeof(long) = 8`) raises `OverflowError`
inside `PyLong_AsUnsignedLong`, then returns failure from the
narrow-and-rewiden check at lines 111-114 — *before* the `PyErr_Clear`
at lines 117-120 — so `load` returns false with the error still pending,
contradicting the claim that any internally raised error is cleared. -/
theorem c6_error_left_pending :
    numLoadInt 1 false 8 4 true stC6 = (none, { stC6 with err := true }) := by
  decide

/-- A minimal well-formed runtime state: the three singletons and nothing
else, no pending error. -/
def st0 : PyState :=
  ⟨[⟨PyVal.vnone, 1⟩, ⟨PyVal.vbool true, 1⟩, ⟨PyVal.vbool false, 1⟩], false⟩

/-- The `float` value `3/2`, written as an explicit reduced fraction so that
its numerator and denominator are kernel-reducible. -/
def qThreeHalves : ℚ := ⟨3, 2, by norm_num, by norm_num [Nat.Coprime]⟩

/-- C2, witness: round trip of `int8_t` value `-7` and of `float` value
`3/2` on the concrete state `st0`. -/
theorem c2_numeric_round_trip_witness :
    intInRange 1 true (-7) = true ∧
    (numLoadInt 1 true 8 (numCastInt 1 true 8 (-7) st0).2 false
      (numCastInt 1 true 8 (-7) st0).1).1 = some (-7) ∧
    fits24 qThreeHalves = true ∧
    (numLoadFlt false (numCastFlt qThreeHalves st0).2 true
      (numCastFlt qThreeHalves st0).1).1 = some qThreeHalves :=
  ⟨by decide,
   c2_numeric_round_trip.1 1 true 8 (-7) false st0 (by decide) (by decide)
     (by decide) rfl,
   by decide,
   c2_numeric_round_trip.2 false qThreeHalves true st0 (by decide) rfl⟩

/-! ### Sequence protocol (`PySequence_Size` / `PySequence_GetItem`) -/

/-- `PySequence_Size`: the length for tuples and for user sequences whose
`__len__` succeeds; `-1` (= `none`) with an error pending otherwise.
(The model gives the sequence protocol to tuples and `vseq` values; `vstr`
objects only feed the string shims.) -/
def pySequence_Size (st : PyState) (a : ℕ) : Option ℕ × PyState :=
  match getVal st a with
  | some (PyVal.vtuple items) => (some items.length, st)
  | some (PyVal.vseq (some n) _) => (some n, st)
  | _ => (none, seterr st)

/-- `PySequence_GetItem`: returns a *new* reference to the element (the
reference count of the returned object is incremented); fails with an error
pending on an out-of-range index, a failing `__getitem__`, or a
non-sequence. -/
def pySequence_GetItem (st : PyState) (a : ℕ) (i : ℕ) : Option ℕ × PyState :=
  match getVal st a with
  | some (PyVal.vtuple items) =>
      match items.get? i with
      | some b => (some b, incref st b)
      | none => (none, seterr st)
  | some (PyVal.vseq _ get) =>
      match get.get? i with
      | some (some b) => (some b, incref st b)
      | _ => (none, seterr st)
  | _ => (none, seterr st)

/-- `Py_DECREF` over a list of addresses (the cleanup loops). -/
def decrefList (st : PyState) (l : List ℕ) : PyState := l.foldl decref st

/-- The fetch loop of `seq_size_fetch`: fetch `rem` more elements starting
at index `i`, extending the already-fetched prefix `acc`; on a failed fetch,
release every previously fetched element and fail. -/
def seqFetchAux (a : ℕ) : ℕ → ℕ → List ℕ → PyState → Option (List ℕ) × PyState
  | 0, _, acc, st => (some acc, st)
  | rem + 1, i, acc, st =>
    match pySequence_GetItem st a i with
    | (some b, st1) => seqFetchAux a rem (i + 1) (acc ++ [b]) st1
    | (none, st1) => (none, decrefList st1 acc)

/-- The continuation of `seq_size_fetch` after the size query: a failed
query (`rv == -1`) has its error cleared and `-1 != size` fails the check;
a successful query must return exactly `size` or the fetch fails before
acquiring anything. -/
def seqSizeFetchBody (seq : ℕ) (size : ℕ) (rv : Option ℕ × PyState) :
    Option (List ℕ) × PyState :=
  match rv with
  | (none, st1) => (none, clearerr st1)
  | (some n, st1) =>
      if n ≠ size then (none, st1)
      else seqFetchAux seq size 0 [] st1

/-- `seq_size_fetch` (common.cpp lines 306-325): check that `seq` is a
sequence of exactly `size` elements (clearing the error a failing size query
leaves behind), then fetch all elements, releasing the already-fetched
prefix if any fetch fails. -/
def seq_size_fetch (seq : ℕ) (size : ℕ) (st : PyState) :
    Option (List ℕ) × PyState :=
  seqSizeFetchBody seq size (pySequence_Size st seq)

/-! ### The pair caster (`type_caster<std::pair<T1, T2>>`) -/

/-- The tail of the pair `load` after the first element converted: the
second nested `load`'s outcome decides between the cleanup path
(`Py_DECREF(o[0]); Py_DECREF(o[1])`) and committing both values. -/
def pairLoadSnd {α β : Type} (o0 o1 : ℕ) (v1 : α)
    (r2 : Option β × PyState) : Option (α × β) × PyState :=
  match r2 with
  | (none, st3) => (none, decref (decref st3 o0) o1)
  | (some v2, st3) => (some (v1, v2), st3)

/-- The body of the pair `load` after the first nested `load` ran: a failing
first element triggers the same cleanup path. -/
def pairLoadFst {α β : Type}
    (load2 : ℕ → Bool → PyState → Option β × PyState)
    (o0 o1 : ℕ) (convert : Bool)
    (r1 : Option α × PyState) : Option (α × β) × PyState :=
  match r1 with
  | (none, st2) => (none, decref (decref st2 o0) o1)
  | (some v1, st2) => pairLoadSnd o0 o1 v1 (load2 o1 convert st2)

/-- The body of the pair `load` after `seq_size_fetch` ran.  (The arm for a
fetched list that is not a 2-element list is unreachable: `seq_size_fetch`
with size 2 returns exactly 2 elements.) -/
def pairLoadFetched {α β : Type}
    (load1 : ℕ → Bool → PyState → Option α × PyState)
    (load2 : ℕ → Bool → PyState → Option β × PyState)
    (convert : Bool)
    (r : Option (List ℕ) × PyState) : Option (α × β) × PyState :=
  match r with
  | (none, st1) => (none, st1)
  | (some [o0, o1], st1) =>
      pairLoadFst load2 o0 o1 convert (load1 o0 convert st1)
  | (some _, st1) => (none, st1)

/-- `type_caster<std::pair<T1,T2>>::load`, parametric in the nested casters'
`load` functions.  Fetches both elements via `seq_size_fetch`, then loads
them in order; on either nested failure both fetched element references are
released. -/
def pairLoad {α β : Type}
    (load1 : ℕ → Bool → PyState → Option α × PyState)
    (load2 : ℕ → Bool → PyState → Option β × PyState)
    (src : ℕ) (convert : Bool) (st : PyState) : Option (α × β) × PyState :=
  pairLoadFetched load1 load2 convert (seq_size_fetch src 2 st)

/-- `type_caster<std::pair<T1,T2>>::cast`, parametric in the nested casters'
`cast` outcomes (already applied to the pair's components, the policy and
the parent).  A failing component yields an invalid handle; the RAII `object`
wrappers release the first component if the second fails; on success the two
released references are stolen into a fresh 2-tuple. -/
def pairCast (cast1 cast2 : PyState → PyState × ℕ) (st : PyState) :
    PyState × ℕ :=
  match cast1 st with
  | (st1, a1) =>
    if a1 = 0 then (st1, 0)
    else
      match cast2 st1 with
      | (st2, a2) =>
        if a2 = 0 then (decref st2 a1, 0)
        else alloc st2 (PyVal.vtuple [a1, a2])

/-! ### Reference-count bookkeeping lemmas -/

lemma rcOf_of_heap_eq {st st' : PyState} (h : st.heap = st'.heap) (x : ℕ) :
    rcOf st x = rcOf st' x := by
  unfold rcOf getObj
  rw [h]

lemma live_of_heap_len {st st' : PyState}
    (h : st.heap.length = st'.heap.length) (x : ℕ) :
    live st x ↔ live st' x := by
  unfold live
  rw [h]

lemma rcOf_of_not_live {st : PyState} {x : ℕ} (h : ¬ live st x) :
    rcOf st x = 0 := by
  unfold live at h
  unfold rcOf getObj
  by_cases hx : x = 0
  · simp [hx]
  · rw [if_neg hx, List.get?_eq_none.mpr (by omega)]

lemma heapLen_incref (st : PyState) (a : ℕ) :
    (incref st a).heap.length = st.heap.length := by
  unfold incref
  cases getObj st a <;> simp

lemma heapLen_decref (st : PyState) (a : ℕ) :
    (decref st a).heap.length = st.heap.length := by
  unfold decref
  cases getObj st a <;> simp

lemma heapLen_decrefList (st : PyState) (l : List ℕ) :
    (decrefList st l).heap.length = st.heap.length := by
  induction l generalizing st with
  | nil => rfl
  | cons b t ih =>
    show (decrefList (decref st b) t).heap.length = _
    rw [ih, heapLen_decref]

lemma getObj_some_bound {st : PyState} {a : ℕ} {o : Obj}
    (h : getObj st a = some o) : a ≠ 0 ∧ a - 1 < st.heap.length := by
  unfold getObj at h
  by_cases ha : a = 0
  · rw [if_pos ha] at h
    exact Option.noConfusion h
  · refine ⟨ha, ?_⟩
    by_contra hc
    rw [if_neg ha, List.get?_eq_none.mpr (by omega)] at h
    exact Option.noConfusion h

lemma getObj_incref (st : PyState) (a x : ℕ) :
    getObj (incref st a) x =
      if x = a then (getObj st a).map (fun o => ⟨o.val, o.rc + 1⟩)
      else getObj st x := by
  unfold incref
  cases h : getObj st a with
  | none => by_cases hx : x = a <;> simp [h, hx]
  | some o =>
    obtain ⟨ha0, hb⟩ := getObj_some_bound h
    by_cases hx : x = a
    · subst hx
      simp [getObj, ha0, List.getElem?_set_eq_of_lt _ hb]
    · rw [if_neg hx]
      show getObj { st with heap := st.heap.set (a - 1) ⟨o.val, o.rc + 1⟩ } x
        = getObj st x
      by_cases hx0 : x = 0
      · simp [getObj, hx0]
      · simp only [getObj, if_neg hx0]
        exact List.get?_set_ne _ _ (by omega)

lemma getObj_decref (st : PyState) (a x : ℕ) :
    getObj (decref st a) x =
      if x = a then (getObj st a).map (fun o => ⟨o.val, o.rc - 1⟩)
      else getObj st x := by
  unfold decref
  cases h : getObj st a with
  | none => by_cases hx : x = a <;> simp [h, hx]
  | some o =>
    obtain ⟨ha0, hb⟩ := getObj_some_bound h
    by_cases hx : x = a
    · subst hx
      simp [getObj, ha0, List.getElem?_set_eq_of_lt _ hb]
    · rw [if_neg hx]
      show getObj { st with heap := st.heap.set (a - 1) ⟨o.val, o.rc - 1⟩ } x
        = getObj st x
      by_cases hx0 : x = 0
      · simp [getObj, hx0]
      · simp only [getObj, if_neg hx0]
        exact List.get?_set_ne _ _ (by omega)

lemma rcOf_incref (st : PyState) (a x : ℕ) :
    rcOf (incref st a) x =
      if x = a ∧ live st a then rcOf st x + 1 else rcOf st x := by
  unfold rcOf
  rw [getObj_incref]
  by_cases hx : x = a
  · subst hx
    cases h : getObj st x with
    | none =>
      have : ¬ live st x := by
        intro hl
        unfold live at hl
        unfold getObj at h
        rw [if_neg hl.1, List.get?_eq_some.mpr ⟨hl.2, rfl⟩] at h
        exact Option.noConfusion h
      simp [h, this]
    | some o =>
      have : live st x := by
        obtain ⟨h1, h2⟩ := getObj_some_bound h
        exact ⟨h1, h2⟩
      simp [h, this]
  · simp [hx]

lemma rcOf_decref (st : PyState) (a x : ℕ) :
    rcOf (decref st a) x =
      if x = a then rcOf st x - 1 else rcOf st x := by
  unfold rcOf
  rw [getObj_decref]
  by_cases hx : x = a
  · subst hx
    cases h : getObj st x <;> simp [h]
  · simp [hx]

lemma rcOf_decrefList (st : PyState) (l : List ℕ) (x : ℕ) :
    rcOf (decrefList st l) x = rcOf st x - l.count x := by
  induction l generalizing st with
  | nil => rfl
  | cons b t ih =>
    show rcOf (decrefList (decref st b) t) x = _
    rw [ih, rcOf_decref]
    by_cases hx : x = b
    · subst hx
      rw [if_pos rfl, List.count_cons_self]
      omega
    · simp [List.count_cons, hx, Ne.symm hx]

/-! ### Behaviour of `seq_size_fetch` -/

lemma pySequence_Size_heap (st : PyState) (a : ℕ) :
    (pySequence_Size st a).2.heap = st.heap := by
  unfold pySequence_Size
  split <;> rfl

lemma pySequence_GetItem_spec (st : PyState) (a i : ℕ) :
    (∃ b, pySequence_GetItem st a i = (some b, incref st b)) ∨
    pySequence_GetItem st a i = (none, seterr st) := by
  rcases hv : getVal st a with _ | v
  · right
    simp [pySequence_GetItem, hv]
  · cases v with
    | vtuple items =>
      rcases hg : items[i]? with _ | b
      · right
        simp [pySequence_GetItem, hv, hg]
      · left
        exact ⟨b, by simp [pySequence_GetItem, hv, hg]⟩
    | vseq sz g =>
      rcases hg : g[i]? with _ | ob
      · right
        simp [pySequence_GetItem, hv, hg]
      · rcases ob with _ | b
        · right
          simp [pySequence_GetItem, hv, hg]
        · left
          exact ⟨b, by simp [pySequence_GetItem, hv, hg]⟩
    | vint n =>
      right
      simp [pySequence_GetItem, hv]
    | vfloat q =>
      right
      simp [pySequence_GetItem, hv]
    | vbool b =>
      right
      simp [pySequence_GetItem, hv]
    | vnone =>
      right
      simp [pySequence_GetItem, hv]
    | vstr s =>
      right
      simp [pySequence_GetItem, hv]

lemma seqFetchAux_heapLen (a : ℕ) :
    ∀ (rem i : ℕ) (acc : List ℕ) (st : PyState),
    (seqFetchAux a rem i acc st).2.heap.length = st.heap.length := by
  intro rem
  induction rem with
  | zero => intro i acc st; rfl
  | succ rem ih =>
    intro i acc st
    rcases pySequence_GetItem_spec st a i with ⟨b, hb⟩ | hn
    · simp only [seqFetchAux, hb]
      rw [ih, heapLen_incref]
    · simp only [seqFetchAux, hn]
      rw [heapLen_decrefList]
      rfl

lemma seqFetchAux_none_rc (a : ℕ) :
    ∀ (rem i : ℕ) (acc : List ℕ) (st : PyState) (x : ℕ),
    (seqFetchAux a rem i acc st).1 = none →
    rcOf (seqFetchAux a rem i acc st).2 x = rcOf st x - acc.count x := by
  intro rem
  induction rem with
  | zero =>
    intro i acc st x h
    exact absurd h (by simp [seqFetchAux])
  | succ rem ih =>
    intro i acc st x h
    rcases pySequence_GetItem_spec st a i with ⟨b, hb⟩ | hn
    · simp only [seqFetchAux, hb] at h ⊢
      rw [ih (i + 1) (acc ++ [b]) (incref st b) x h, rcOf_incref,
        List.count_append]
      by_cases hxb : x = b
      · subst hxb
        rw [show List.count x [x] = 1 from by simp]
        by_cases hlx : live st x
        · rw [if_pos ⟨rfl, hlx⟩]
          omega
        · rw [if_neg (fun hc => hlx hc.2), rcOf_of_not_live hlx]
          omega
      · rw [if_neg (fun hc => hxb hc.1),
          show List.count x [b] = 0 from by simp [hxb]]
        omega
    · simp only [seqFetchAux, hn]
      show rcOf (decrefList (seterr st) acc) x = _
      rw [rcOf_decrefList]
      rfl

lemma seqFetchAux_some_rc (a : ℕ) :
    ∀ (rem i : ℕ) (acc : List ℕ) (st : PyState) (l : List ℕ) (st' : PyState),
    seqFetchAux a rem i acc st = (some l, st') →
    l.length = acc.length + rem ∧
    (∀ x, live st x → rcOf st' x + acc.count x = rcOf st x + l.count x) := by
  intro rem
  induction rem with
  | zero =>
    intro i acc st l st' h
    simp only [seqFetchAux, Prod.mk.injEq, Option.some.injEq] at h
    obtain ⟨hl, hst⟩ := h
    subst hl
    subst hst
    exact ⟨by omega, fun x _ => rfl⟩
  | succ rem ih =>
    intro i acc st l st' h
    rcases pySequence_GetItem_spec st a i with ⟨b, hb⟩ | hn
    · simp only [seqFetchAux, hb] at h
      obtain ⟨hlen, hrc⟩ := ih (i + 1) (acc ++ [b]) (incref st b) l st' h
      refine ⟨by simp at hlen; omega, ?_⟩
      intro x hlx
      have hlx1 : live (incref st b) x :=
        (live_of_heap_len (heapLen_incref st b) x).mpr hlx
      have hc := hrc x hlx1
      rw [rcOf_incref, List.count_append] at hc
      by_cases hxb : x = b
      · subst hxb
        rw [show List.count x [x] = 1 from by simp, if_pos ⟨rfl, hlx⟩] at hc
        omega
      · rw [if_neg (fun hc' => hxb hc'.1),
          show List.count x [b] = 0 from by simp [hxb]] at hc
        omega
    · simp only [seqFetchAux, hn, Prod.mk.injEq] at h
      exact absurd h.1 (by simp)

lemma seq_size_fetch_none_rc (seq size : ℕ) (st : PyState) (x : ℕ)
    (h : (seq_size_fetch seq size st).1 = none) :
    rcOf (seq_size_fetch seq size st).2 x = rcOf st x := by
  have hh : (pySequence_Size st seq).2.heap = st.heap := pySequence_Size_heap st seq
  unfold seq_size_fetch at h ⊢
  rcases hs : pySequence_Size st seq with ⟨r, st1⟩
  rw [hs] at h hh
  rcases r with _ | n
  · simp only [seqSizeFetchBody]
    exact rcOf_of_heap_eq hh x
  · simp only [seqSizeFetchBody] at h ⊢
    by_cases hns : n ≠ size
    · rw [if_pos hns]
      exact rcOf_of_heap_eq hh x
    · rw [if_neg hns] at h ⊢
      rw [seqFetchAux_none_rc seq size 0 [] st1 x h]
      simp only [List.count_nil, Nat.sub_zero]
      exact rcOf_of_heap_eq hh x

lemma seq_size_fetch_some_spec (seq size : ℕ) (st : PyState) (l : List ℕ)
    (st1 : PyState) (h : seq_size_fetch seq size st = (some l, st1)) :
    l.length = size ∧ st1.heap.length = st.heap.length ∧
    (∀ x, live st x → rcOf st1 x = rcOf st x + l.count x) := by
  have hh : (pySequence_Size st seq).2.heap = st.heap := pySequence_Size_heap st seq
  unfold seq_size_fetch at h
  rcases hs : pySequence_Size st seq with ⟨r, st2⟩
  rw [hs] at h hh
  rcases r with _ | n
  · simp [seqSizeFetchBody] at h
  · simp only [seqSizeFetchBody] at h
    by_cases hns : n ≠ size
    · rw [if_pos hns] at h
      simp at h
    · rw [if_neg hns] at h
      push_neg at hns
      subst hns
      obtain ⟨hl, hrc⟩ := seqFetchAux_some_rc seq n 0 [] st2 l st1 h
      have hh2 : st2.heap = st.heap := hh
      have hlen1 : st1.heap.length = st.heap.length := by
        have haux := seqFetchAux_heapLen seq n 0 [] st2
        rw [h] at haux
        simp only [] at haux
        rw [← hh2]
        exact haux
      refine ⟨by simpa using hl, hlen1, ?_⟩
      intro x hlx
      have hlx2 : live st2 x := by
        unfold live at hlx ⊢
        rw [hh2]
        exact hlx
      have hb := hrc x hlx2
      simp only [List.count_nil, Nat.add_zero] at hb
      rw [hb, rcOf_of_heap_eq hh2 x]

lemma count_pair (x o0 o1 : ℕ) :
    List.count x [o0, o1] =
      (if x = o0 then 1 else 0) + (if x = o1 then 1 else 0) := by
  by_cases e0 : x = o0 <;> by_cases e1 : x = o1
  · subst e0
    subst e1
    simp
  · subst e0
    simp [List.count_cons, e1, Ne.symm e1]
  · subst e1
    simp [List.count_cons, e0, Ne.symm e0]
  · simp [List.count_cons, e0, e1, Ne.symm e0, Ne.symm e1]

/-- The reference-count balance on either failure path of the pair caster's
`load`: the fetched elements `o0`, `o1` were acquired once each by
`seq_size_fetch` and are released once each by the cleanup. -/
lemma pair_fail_balance (st st1 stX : PyState) (o0 o1 x : ℕ)
    (hheapX : stX.heap = st1.heap)
    (hheaplen : st1.heap.length = st.heap.length)
    (hrc : ∀ y, live st y → rcOf st1 y = rcOf st y + List.count y [o0, o1]) :
    rcOf (decref (decref stX o0) o1) x = rcOf st x := by
  have hX : rcOf stX x = rcOf st1 x := rcOf_of_heap_eq hheapX x
  by_cases hlx : live st x
  · have hc := hrc x hlx
    rw [rcOf_decref, rcOf_decref, hX, hc, count_pair]
    split_ifs <;> omega
  · have h0 := rcOf_of_not_live hlx
    have hlx1 : ¬ live st1 x := fun hl => hlx ((live_of_heap_len hheaplen x).mp hl)
    have h1' := rcOf_of_not_live hlx1
    rw [rcOf_decref, rcOf_decref, hX, h1', h0]
    split_ifs <;> omega

/-- C4: if a nested conversion fails during the pair caster's `load` after
the elements were fetched, both fetched foreign element references are
released before `load` returns failure; and whenever `seq_size_fetch` fails
(size mismatch or a failing element fetch), every element reference it
acquired has been released.  In both cases every object's reference count is
restored exactly; nested casters are assumed not to touch the heap (true of
all leaf casters in this file). -/
theorem c4_no_reference_leak :
    (∀ (α β : Type) (load1 : ℕ → Bool → PyState → Option α × PyState)
        (load2 : ℕ → Bool → PyState → Option β × PyState),
      (∀ o c s, (load1 o c s).2.heap = s.heap) →
      (∀ o c s, (load2 o c s).2.heap = s.heap) →
      ∀ (src : ℕ) (convert : Bool) (st : PyState),
        (pairLoad load1 load2 src convert st).1 = none →
        ∀ x, rcOf (pairLoad load1 load2 src convert st).2 x = rcOf st x) ∧
    (∀ (seq size : ℕ) (st : PyState),
      (seq_size_fetch seq size st).1 = none →
      ∀ x, rcOf (seq_size_fetch seq size st).2 x = rcOf st x) := by
  refine ⟨?_, fun seq size st h x => seq_size_fetch_none_rc seq size st x h⟩
  intro α β load1 load2 h1 h2 src convert st hres x
  unfold pairLoad at hres ⊢
  rcases hsf : seq_size_fetch src 2 st with ⟨r, st1⟩
  rw [hsf] at hres
  rcases r with _ | os
  · simp only [pairLoadFetched]
    have := seq_size_fetch_none_rc src 2 st x (by rw [hsf])
    rw [hsf] at this
    exact this
  · obtain ⟨hlen, hheaplen, hrc⟩ := seq_size_fetch_some_spec src 2 st os st1 hsf
    rcases os with _ | ⟨o0, os'⟩
    · simp at hlen
    rcases os' with _ | ⟨o1, os''⟩
    · simp at hlen
    rcases os'' with _ | ⟨o2, os'''⟩
    swap
    · simp at hlen
    simp only [pairLoadFetched] at hres ⊢
    rcases hl1 : load1 o0 convert st1 with ⟨r1, st2⟩
    rw [hl1] at hres
    have hst2 : st2.heap = st1.heap := by
      have := h1 o0 convert st1
      rw [hl1] at this
      exact this
    rcases r1 with _ | v1
    · simp only [pairLoadFst]
      exact pair_fail_balance st st1 st2 o0 o1 x hst2 hheaplen hrc
    · simp only [pairLoadFst] at hres ⊢
      rcases hl2 : load2 o1 convert st2 with ⟨r2, st3⟩
      rw [hl2] at hres
      have hst3 : st3.heap = st1.heap := by
        have := h2 o1 convert st2
        rw [hl2] at this
        rw [this, hst2]
      rcases r2 with _ | v2
      · simp only [pairLoadSnd]
        exact pair_fail_balance st st1 st3 o0 o1 x hst3 hheaplen hrc
      · simp [pairLoadSnd] at hres

lemma pyLong_AsSigned_heap (w : ℕ) (st : PyState) (a : ℕ) :
    (pyLong_AsSigned w st a).2.heap = st.heap := by
  unfold pyLong_AsSigned
  split <;> first | rfl | (split_ifs <;> rfl)

lemma pyLong_AsUnsigned_heap (w : ℕ) (st : PyState) (a : ℕ) :
    (pyLong_AsUnsigned w st a).2.heap = st.heap := by
  unfold pyLong_AsUnsigned
  split <;> first | rfl | (split_ifs <;> rfl)

lemma numLoadInt_heap (sz : ℕ) (sgn : Bool) (lsz src : ℕ) (convert : Bool)
    (st : PyState) : (numLoadInt sz sgn lsz src convert st).2.heap = st.heap := by
  cases sgn <;>
    (unfold numLoadInt numLoadIntBody;
     split_ifs <;>
       simp [clearerr, pyLong_AsSigned_heap, pyLong_AsUnsigned_heap])

/-- The state for the C4 witness: the singletons, the Python int `5` at
address 4, and at address 5 a 2-tuple whose elements are addresses 4 and 1
(the int and `None`). -/
def stPair : PyState :=
  ⟨[⟨PyVal.vnone, 1⟩, ⟨PyVal.vbool true, 1⟩, ⟨PyVal.vbool false, 1⟩,
    ⟨PyVal.vint 5, 1⟩, ⟨PyVal.vtuple [4, 1], 1⟩], false⟩

/-- C4, witness: loading the tuple `(5, None)` as a pair of `int8_t` fails
on the second element; the reference counts of both fetched elements
(addresses 4 and 1) are restored.  A `seq_size_fetch` with wrong arity also
leaves counts unchanged. -/
theorem c4_no_reference_leak_witness :
    (pairLoad (fun o c s => numLoadInt 1 true 8 o c s)
      (fun o c s => numLoadInt 1 true 8 o c s) 5 true stPair).1 = none ∧
    rcOf (pairLoad (fun o c s => numLoadInt 1 true 8 o c s)
      (fun o c s => numLoadInt 1 true 8 o c s) 5 true stPair).2 4
      = rcOf stPair 4 ∧
    rcOf (pairLoad (fun o c s => numLoadInt 1 true 8 o c s)
      (fun o c s => numLoadInt 1 true 8 o c s) 5 true stPair).2 1
      = rcOf stPair 1 ∧
    (seq_size_fetch 5 3 stPair).1 = none ∧
    rcOf (seq_size_fetch 5 3 stPair).2 4 = rcOf stPair 4 :=
  ⟨by decide,
   c4_no_reference_leak.1 ℤ ℤ _ _
     (fun o c s => numLoadInt_heap 1 true 8 o c s)
     (fun o c s => numLoadInt_heap 1 true 8 o c s)
     5 true stPair (by decide) 4,
   c4_no_reference_leak.1 ℤ ℤ _ _
     (fun o c s => numLoadInt_heap 1 true 8 o c s)
     (fun o c s => numLoadInt_heap 1 true 8 o c s)
     5 true stPair (by decide) 1,
   by decide,
   c4_no_reference_leak.2 5 3 stPair (by decide) 4⟩

/-- C7: the pair caster's `cast` builds a fresh foreign sequence of exactly
arity 2 holding the two component references; if casting either component
fails, the whole `cast` returns the invalid handle `0` and no tuple is
allocated (the resulting heap is exactly the component casts' heap, with the
first component released by its RAII wrapper when the second fails). -/
theorem c7_pair_cast_atomicity (cast1 cast2 : PyState → PyState × ℕ)
    (st : PyState) :
    ((cast1 st).2 = 0 → pairCast cast1 cast2 st = ((cast1 st).1, 0)) ∧
    ((cast1 st).2 ≠ 0 → (cast2 (cast1 st).1).2 = 0 →
      pairCast cast1 cast2 st =
        (decref (cast2 (cast1 st).1).1 (cast1 st).2, 0) ∧
      (pairCast cast1 cast2 st).1.heap.length =
        (cast2 (cast1 st).1).1.heap.length) ∧
    ((cast1 st).2 ≠ 0 → (cast2 (cast1 st).1).2 ≠ 0 →
      pairCast cast1 cast2 st =
        alloc (cast2 (cast1 st).1).1
          (PyVal.vtuple [(cast1 st).2, (cast2 (cast1 st).1).2]) ∧
      getVal (pairCast cast1 cast2 st).1 (pairCast cast1 cast2 st).2 =
        some (PyVal.vtuple [(cast1 st).2, (cast2 (cast1 st).1).2])) := by
  refine ⟨?_, ?_, ?_⟩
  · intro hz
    show (if (cast1 st).2 = 0 then ((cast1 st).1, 0)
          else if (cast2 (cast1 st).1).2 = 0
          then (decref (cast2 (cast1 st).1).1 (cast1 st).2, 0)
          else alloc (cast2 (cast1 st).1).1
            (PyVal.vtuple [(cast1 st).2, (cast2 (cast1 st).1).2])) = _
    rw [if_pos hz]
  · intro hnz hz2
    have hred : pairCast cast1 cast2 st =
        (decref (cast2 (cast1 st).1).1 (cast1 st).2, 0) := by
      show (if (cast1 st).2 = 0 then ((cast1 st).1, 0)
            else if (cast2 (cast1 st).1).2 = 0
            then (decref (cast2 (cast1 st).1).1 (cast1 st).2, 0)
            else alloc (cast2 (cast1 st).1).1
              (PyVal.vtuple [(cast1 st).2, (cast2 (cast1 st).1).2])) = _
      rw [if_neg hnz, if_pos hz2]
    refine ⟨hred, ?_⟩
    rw [hred]
    exact heapLen_decref _ _
  · intro hnz hnz2
    have hred : pairCast cast1 cast2 st =
        alloc (cast2 (cast1 st).1).1
          (PyVal.vtuple [(cast1 st).2, (cast2 (cast1 st).1).2]) := by
      show (if (cast1 st).2 = 0 then ((cast1 st).1, 0)
            else if (cast2 (cast1 st).1).2 = 0
            then (decref (cast2 (cast1 st).1).1 (cast1 st).2, 0)
            else alloc (cast2 (cast1 st).1).1
              (PyVal.vtuple [(cast1 st).2, (cast2 (cast1 st).1).2])) = _
      rw [if_neg hnz, if_neg hnz2]
    refine ⟨hred, ?_⟩
    rw [hred]
    exact getVal_alloc _ _

/-- C7, witness: with a failing second component cast the pair cast returns
the invalid handle; with two succeeding component casts it returns a 2-tuple
of the component handles. -/
theorem c7_pair_cast_atomicity_witness :
    pairCast (fun s => (s, 2)) (fun s => (s, 0)) st0 = (decref st0 2, 0) ∧
    getVal (pairCast (fun s => (s, 2)) (fun s => (s, 3)) st0).1
      (pairCast (fun s => (s, 2)) (fun s => (s, 3)) st0).2
      = some (PyVal.vtuple [2, 3]) :=
  ⟨((c7_pair_cast_atomicity (fun s => (s, 2)) (fun s => (s, 0)) st0).2.1
      (by decide) (by decide)).1,
   ((c7_pair_cast_atomicity (fun s => (s, 2)) (fun s => (s, 3)) st0).2.2
      (by decide) (by decide)).2⟩

/-! ### The Error Bridge (`raise`, `fail`, `python_error_raise`) -/

/-- A native failure signal produced by the Error Bridge: a thrown
`python_error` (wrapping the pending foreign error), a thrown
`std::runtime_error` carrying a formatted diagnostic, or the unconditional
process abort of `fail`. -/
inductive NbFail where
  | pyerr
  | fatal
  | runtimeError (msg : List Char)
deriving DecidableEq, Repr

/-- `python_error_raise` (common.cpp lines 87-93): throws `python_error` if
an error is pending, otherwise the invariant violation aborts the process
via `fail`. -/
def python_error_raise (st : PyState) : NbFail :=
  if st.err then NbFail.pyerr else NbFail.fatal

/-- `vsnprintf(buf, cap, fmt, args)` on a buffer of `cap` bytes, where `s`
is the full formatted output: writes at most `cap - 1` characters (plus the
terminating NUL) and returns the length the full output would have. -/
def vsnprintfModel (cap : ℕ) (s : List Char) : List Char × ℕ :=
  (s.take (cap - 1), s.length)

/-- Which allocation the diagnostic of `raise` ended up in. -/
inductive RaisePath where
  | stack
  | heap
deriving DecidableEq, Repr

/-- `raise` (common.cpp lines 11-35), with `s` the full formatted message:
format into the 512-byte stack buffer; if the message fit, throw a
`runtime_error` carrying the buffer, otherwise allocate `size + 1` bytes on
the heap, reformat, and throw a `runtime_error` carrying the heap copy.
(The out-of-memory abort of the `malloc` path is outside the model.) -/
def raise (s : List Char) : RaisePath × NbFail :=
  let r := vsnprintfModel 512 s
  if r.2 < 512 then (RaisePath.stack, NbFail.runtimeError r.1)
  else
    let r2 := vsnprintfModel (r.2 + 1) s
    (RaisePath.heap, NbFail.runtimeError r2.1)

/-- C9: `raise` formats into the fixed 512-byte stack buffer and throws a
recoverable failure carrying the message; for every message of formatted
length at least 512 it takes the heap-allocation fallback, and the thrown
failure carries the full message byte-for-byte, identical to what unbounded
formatting would produce.  (Messages that fit the stack buffer are also
carried verbatim.) -/
theorem c9_raise_heap_fallback (s : List Char) :
    (s.length < 512 → raise s = (RaisePath.stack, NbFail.runtimeError s)) ∧
    (512 ≤ s.length → raise s = (RaisePath.heap, NbFail.runtimeError s)) := by
  constructor
  · intro h
    unfold raise vsnprintfModel
    rw [if_pos h, List.take_all_of_le (by omega)]
  · intro h
    unfold raise vsnprintfModel
    rw [if_neg (by omega)]
    simp

/-- C9, witness: a 600-character message takes the heap path and is carried
verbatim; a short message stays on the stack. -/
theorem c9_raise_heap_fallback_witness :
    512 ≤ (List.replicate 600 'a').length ∧
    raise (List.replicate 600 'a') =
      (RaisePath.heap, NbFail.runtimeError (List.replicate 600 'a')) ∧
    raise ['h', 'i'] = (RaisePath.stack, NbFail.runtimeError ['h', 'i']) :=
  ⟨by rw [List.length_replicate]; omega,
   (c9_raise_heap_fallback (List.replicate 600 'a')).2
     (by rw [List.length_replicate]; omega),
   (c9_raise_heap_fallback ['h', 'i']).1 (by decide)⟩

/-! ### The Object Protocol Shim (common.cpp lines 97-302)

Each wrapped operation performs one underlying foreign-runtime call.  The
underlying calls (`PyObject_Length`, `PyObject_GetAttr`, ...) depend on
arbitrary user objects, so they appear as oracle parameters: a primitive
returns `none` (a NULL / `-1` result) on failure, together with the state it
leaves behind (the CPython contract sets the pending error on failure). -/

/-- `obj_len`: `PyObject_Length`, raising through the Error Bridge on a
negative result. -/
def obj_len (lenPrim : PyState → Option ℕ × PyState) (st : PyState) :
    Except NbFail (PyState × ℕ) :=
  match lenPrim st with
  | (some n, st1) => Except.ok (st1, n)
  | (none, st1) => Except.error (python_error_raise st1)

/-- `obj_repr`: `PyObject_Repr`, raising on a NULL result. -/
def obj_repr (reprPrim : PyState → Option ℕ × PyState) (st : PyState) :
    Except NbFail (PyState × ℕ) :=
  match reprPrim st with
  | (some r, st1) => Except.ok (st1, r)
  | (none, st1) => Except.error (python_error_raise st1)

/-- `obj_compare`: `PyObject_RichCompareBool` (result `-1`/`0`/`1`), raising
on `-1` and returning whether the result was `1`. -/
def obj_compare (cmpPrim : PyState → Option Bool × PyState) (st : PyState) :
    Except NbFail (PyState × Bool) :=
  match cmpPrim st with
  | (some rv, st1) => Except.ok (st1, rv)
  | (none, st1) => Except.error (python_error_raise st1)

/-- `obj_op_1`: apply a unary operator function pointer, raising on NULL. -/
def obj_op_1 (op : PyState → Option ℕ × PyState) (st : PyState) :
    Except NbFail (PyState × ℕ) :=
  match op st with
  | (some r, st1) => Except.ok (st1, r)
  | (none, st1) => Except.error (python_error_raise st1)

/-- `obj_op_2`: apply a binary operator function pointer, raising on NULL. -/
def obj_op_2 (op : PyState → Option ℕ × PyState) (st : PyState) :
    Except NbFail (PyState × ℕ) :=
  match op st with
  | (some r, st1) => Except.ok (st1, r)
  | (none, st1) => Except.error (python_error_raise st1)

/-- `getattr(obj, const char *key)`: raising overload. -/
def getattr_str (prim : ℕ → String → PyState → Option ℕ × PyState)
    (obj : ℕ) (key : String) (st : PyState) : Except NbFail (PyState × ℕ) :=
  match prim obj key st with
  | (some r, st1) => Except.ok (st1, r)
  | (none, st1) => Except.error (python_error_raise st1)

/-- `getattr(obj, PyObject *key)`: raising overload. -/
def getattr_obj (prim : ℕ → ℕ → PyState → Option ℕ × PyState)
    (obj key : ℕ) (st : PyState) : Except NbFail (PyState × ℕ) :=
  match prim obj key st with
  | (some r, st1) => Except.ok (st1, r)
  | (none, st1) => Except.error (python_error_raise st1)

/-- `getattr(obj, const char *key, PyObject *def)`: default-value overload —
on failure it *clears* the error, acquires the caller's default
(`Py_XINCREF`, a no-op on NULL) and returns it instead of raising. -/
def getattr_str_default (prim : ℕ → String → PyState → Option ℕ × PyState)
    (obj : ℕ) (key : String) (dflt : ℕ) (st : PyState) :
    Except NbFail (PyState × ℕ) :=
  match prim obj key st with
  | (some r, st1) => Except.ok (st1, r)
  | (none, st1) => Except.ok (incref (clearerr st1) dflt, dflt)

/-- `getattr(obj, PyObject *key, PyObject *def)`: default-value overload. -/
def getattr_obj_default (prim : ℕ → ℕ → PyState → Option ℕ × PyState)
    (obj key dflt : ℕ) (st : PyState) : Except NbFail (PyState × ℕ) :=
  match prim obj key st with
  | (some r, st1) => Except.ok (st1, r)
  | (none, st1) => Except.ok (incref (clearerr st1) dflt, dflt)

/-- `getattr_maybe(obj, const char *key, PyObject **out)`: fetch only when
the in/out slot is empty, raising on failure. -/
def getattr_maybe_str (prim : ℕ → String → PyState → Option ℕ × PyState)
    (obj : ℕ) (key : String) (out : Option ℕ) (st : PyState) :
    Except NbFail (PyState × Option ℕ) :=
  match out with
  | some r => Except.ok (st, some r)
  | none =>
    match prim obj key st with
    | (some r, st1) => Except.ok (st1, some r)
    | (none, st1) => Except.error (python_error_raise st1)

/-- `getattr_maybe(obj, PyObject *key, PyObject **out)`. -/
def getattr_maybe_obj (prim : ℕ → ℕ → PyState → Option ℕ × PyState)
    (obj key : ℕ) (out : Option ℕ) (st : PyState) :
    Except NbFail (PyState × Option ℕ) :=
  match out with
  | some r => Except.ok (st, some r)
  | none =>
    match prim obj key st with
    | (some r, st1) => Except.ok (st1, some r)
    | (none, st1) => Except.error (python_error_raise st1)

/-- `setattr(obj, const char *key, PyObject *value)`, raising on a nonzero
return. -/
def setattr_str (prim : ℕ → String → ℕ → PyState → Option Unit × PyState)
    (obj : ℕ) (key : String) (value : ℕ) (st : PyState) :
    Except NbFail (PyState × Unit) :=
  match prim obj key value st with
  | (some _, st1) => Except.ok (st1, ())
  | (none, st1) => Except.error (python_error_raise st1)

/-- `setattr(obj, PyObject *key, PyObject *value)`. -/
def setattr_obj (prim : ℕ → ℕ → ℕ → PyState → Option Unit × PyState)
    (obj key value : ℕ) (st : PyState) : Except NbFail (PyState × Unit) :=
  match prim obj key value st with
  | (some _, st1) => Except.ok (st1, ())
  | (none, st1) => Except.error (python_error_raise st1)

/-- `getitem_maybe(obj, Py_ssize_t key, PyObject **out)`: builds the integer
key object (`PyLong_FromSsize_t`, modelled as always succeeding), performs
`PyObject_GetItem`, releases the key, and raises on failure. -/
def getitem_maybe_int (prim : ℕ → ℕ → PyState → Option ℕ × PyState)
    (obj : ℕ) (key : ℤ) (out : Option ℕ) (st : PyState) :
    Except NbFail (PyState × Option ℕ) :=
  match out with
  | some r => Except.ok (st, some r)
  | none =>
    match prim obj (alloc st (PyVal.vint key)).2 (alloc st (PyVal.vint key)).1 with
    | (some r, st2) =>
        Except.ok (decref st2 (alloc st (PyVal.vint key)).2, some r)
    | (none, st2) =>
        Except.error (python_error_raise (decref st2 (alloc st (PyVal.vint key)).2))

/-- `getitem_maybe(obj, const char *key, PyObject **out)`: the key is built
with `PyUnicode_FromString` (modelled as always succeeding on the valid
strings representable here). -/
def getitem_maybe_str (prim : ℕ → ℕ → PyState → Option ℕ × PyState)
    (obj : ℕ) (key : List Char) (out : Option ℕ) (st : PyState) :
    Except NbFail (PyState × Option ℕ) :=
  match out with
  | some r => Except.ok (st, some r)
  | none =>
    match prim obj (alloc st (PyVal.vstr key)).2 (alloc st (PyVal.vstr key)).1 with
    | (some r, st2) =>
        Except.ok (decref st2 (alloc st (PyVal.vstr key)).2, some r)
    | (none, st2) =>
        Except.error (python_error_raise (decref st2 (alloc st (PyVal.vstr key)).2))

/-- `getitem_maybe(obj, PyObject *key, PyObject **out)`. -/
def getitem_maybe_obj (prim : ℕ → ℕ → PyState → Option ℕ × PyState)
    (obj key : ℕ) (out : Option ℕ) (st : PyState) :
    Except NbFail (PyState × Option ℕ) :=
  match out with
  | some r => Except.ok (st, some r)
  | none =>
    match prim obj key st with
    | (some r, st1) => Except.ok (st1, some r)
    | (none, st1) => Except.error (python_error_raise st1)

/-- `setitem(obj, Py_ssize_t key, PyObject *value)`. -/
def setitem_int (prim : ℕ → ℕ → ℕ → PyState → Option Unit × PyState)
    (obj : ℕ) (key : ℤ) (value : ℕ) (st : PyState) :
    Except NbFail (PyState × Unit) :=
  match prim obj (alloc st (PyVal.vint key)).2 value (alloc st (PyVal.vint key)).1 with
  | (some _, st2) => Except.ok (decref st2 (alloc st (PyVal.vint key)).2, ())
  | (none, st2) =>
      Except.error (python_error_raise (decref st2 (alloc st (PyVal.vint key)).2))

/-- `setitem(obj, const char *key, PyObject *value)`. -/
def setitem_str (prim : ℕ → ℕ → ℕ → PyState → Option Unit × PyState)
    (obj : ℕ) (key : List Char) (value : ℕ) (st : PyState) :
    Except NbFail (PyState × Unit) :=
  match prim obj (alloc st (PyVal.vstr key)).2 value (alloc st (PyVal.vstr key)).1 with
  | (some _, st2) => Except.ok (decref st2 (alloc st (PyVal.vstr key)).2, ())
  | (none, st2) =>
      Except.error (python_error_raise (decref st2 (alloc st (PyVal.vstr key)).2))

/-- `setitem(obj, PyObject *key, PyObject *value)`. -/
def setitem_obj (prim : ℕ → ℕ → ℕ → PyState → Option Unit × PyState)
    (obj key value : ℕ) (st : PyState) : Except NbFail (PyState × Unit) :=
  match prim obj key value st with
  | (some _, st1) => Except.ok (st1, ())
  | (none, st1) => Except.error (python_error_raise st1)

/-- `str_from_obj`: `PyObject_Str`, raising through `python_error_raise`. -/
def str_from_obj (prim : ℕ → PyState → Option ℕ × PyState) (o : ℕ)
    (st : PyState) : Except NbFail (PyState × ℕ) :=
  match prim o st with
  | (some r, st1) => Except.ok (st1, r)
  | (none, st1) => Except.error (python_error_raise st1)

/-- The diagnostic `str_from_cstr` formats through the Error Bridge. -/
def strFromCstrMsg : List Char :=
  "nanobind::detail::str_from_cstr(): conversion error!".toList

/-- `str_from_cstr`: `PyUnicode_FromString`, raising a formatted
`runtime_error` via `raise` on failure. -/
def str_from_cstr (prim : List Char → PyState → Option ℕ × PyState)
    (s : List Char) (st : PyState) : Except NbFail (PyState × ℕ) :=
  match prim s st with
  | (some r, st1) => Except.ok (st1, r)
  | (none, _) => Except.error (raise strFromCstrMsg).2

/-- The diagnostic of `str_from_cstr_and_size`. -/
def strFromCstrSizeMsg : List Char :=
  "nanobind::detail::str_from_cstr_and_size(): conversion error!".toList

/-- `str_from_cstr_and_size`: `PyUnicode_FromStringAndSize`, raising a
formatted `runtime_error` via `raise` on failure. -/
def str_from_cstr_and_size
    (prim : List Char → ℕ → PyState → Option ℕ × PyState)
    (s : List Char) (size : ℕ) (st : PyState) :
    Except NbFail (PyState × ℕ) :=
  match prim s size st with
  | (some r, st1) => Except.ok (st1, r)
  | (none, _) => Except.error (raise strFromCstrSizeMsg).2

lemma decref_err (st : PyState) (a : ℕ) : (decref st a).err = st.err := by
  unfold decref
  cases getObj st a <;> rfl

/-- A get-attribute primitive that always fails, leaving an error pending
(the CPython contract for a NULL result). -/
def c5FailPrimStr : ℕ → String → PyState → Option ℕ × PyState :=
  fun _ _ s => (none, seterr s)

/-- An always-failing object-returning primitive. -/
def c5FailPrimO : PyState → Option ℕ × PyState := fun s => (none, seterr s)

/-- C5, counterexample: the default-value overload of get-attribute-by-name
(common.cpp lines 148-155) is one of the wrapped shim operations named by
the claim, and its underlying call fails here (NULL result, error pending);
yet it does not route through the Error Bridge: it clears the error and
returns the caller-supplied default as an ordinary `ok` result. -/
theorem c5_shim_counterexample :
    (c5FailPrimStr 5 "x" st0).1 = none ∧
    (c5FailPrimStr 5 "x" st0).2.err = true ∧
    getattr_str_default c5FailPrimStr 5 "x" 1 st0 =
      Except.ok (incref st0 1, 1) :=
  ⟨rfl, rfl, rfl⟩

/-- C5 (amended): every wrapped shim operation *except the two
default-value get-attribute overloads* routes a null/failure result of the
underlying foreign-runtime call through the Error Bridge: the operations
checking `python_error_raise` throw `python_error` (given the CPython
contract that a failing call leaves an error pending), and the raw-bytes
string constructions throw the Error Bridge's formatted `runtime_error`.
The default-value get-attribute overloads instead clear the pending error
and return the caller's default. -/
theorem c5_shim_error_routing :
    (∀ (p : PyState → Option ℕ × PyState) (st : PyState),
      (p st).1 = none → (p st).2.err = true →
      obj_len p st = Except.error NbFail.pyerr) ∧
    (∀ (p : PyState → Option ℕ × PyState) (st : PyState),
      (p st).1 = none → (p st).2.err = true →
      obj_repr p st = Except.error NbFail.pyerr) ∧
    (∀ (p : PyState → Option Bool × PyState) (st : PyState),
      (p st).1 = none → (p st).2.err = true →
      obj_compare p st = Except.error NbFail.pyerr) ∧
    (∀ (p : PyState → Option ℕ × PyState) (st : PyState),
      (p st).1 = none → (p st).2.err = true →
      obj_op_1 p st = Except.error NbFail.pyerr) ∧
    (∀ (p : PyState → Option ℕ × PyState) (st : PyState),
      (p st).1 = none → (p st).2.err = true →
      obj_op_2 p st = Except.error NbFail.pyerr) ∧
    (∀ (prim : ℕ → String → PyState → Option ℕ × PyState) (obj : ℕ)
        (key : String) (st : PyState),
      (prim obj key st).1 = none → (prim obj key st).2.err = true →
      getattr_str prim obj key st = Except.error NbFail.pyerr) ∧
    (∀ (prim : ℕ → ℕ → PyState → Option ℕ × PyState) (obj key : ℕ)
        (st : PyState),
      (prim obj key st).1 = none → (prim obj key st).2.err = true →
      getattr_obj prim obj key st = Except.error NbFail.pyerr) ∧
    (∀ (prim : ℕ → String → PyState → Option ℕ × PyState) (obj : ℕ)
        (key : String) (st : PyState),
      (prim obj key st).1 = none → (prim obj key st).2.err = true →
      getattr_maybe_str prim obj key none st = Except.error NbFail.pyerr) ∧
    (∀ (prim : ℕ → ℕ → PyState → Option ℕ × PyState) (obj key : ℕ)
        (st : PyState),
      (prim obj key st).1 = none → (prim obj key st).2.err = true →
      getattr_maybe_obj prim obj key none st = Except.error NbFail.pyerr) ∧
    (∀ (prim : ℕ → String → ℕ → PyState → Option Unit × PyState) (obj : ℕ)
        (key : String) (value : ℕ) (st : PyState),
      (prim obj key value st).1 = none → (prim obj key value st).2.err = true →
      setattr_str prim obj key value st = Except.error NbFail.pyerr) ∧
    (∀ (prim : ℕ → ℕ → ℕ → PyState → Option Unit × PyState)
        (obj key value : ℕ) (st : PyState),
      (prim obj key value st).1 = none → (prim obj key value st).2.err = true →
      setattr_obj prim obj key value st = Except.error NbFail.pyerr) ∧
    (∀ (prim : ℕ → ℕ → PyState → Option ℕ × PyState) (obj : ℕ) (key : ℤ)
        (st : PyState),
      (prim obj (alloc st (PyVal.vint key)).2 (alloc st (PyVal.vint key)).1).1
        = none →
      (prim obj (alloc st (PyVal.vint key)).2 (alloc st (PyVal.vint key)).1).2.err
        = true →
      getitem_maybe_int prim obj key none st = Except.error NbFail.pyerr) ∧
    (∀ (prim : ℕ → ℕ → PyState → Option ℕ × PyState) (obj : ℕ)
        (key : List Char) (st : PyState),
      (prim obj (alloc st (PyVal.vstr key)).2 (alloc st (PyVal.vstr key)).1).1
        = none →
      (prim obj (alloc st (PyVal.vstr key)).2 (alloc st (PyVal.vstr key)).1).2.err
        = true →
      getitem_maybe_str prim obj key none st = Except.error NbFail.pyerr) ∧
    (∀ (prim : ℕ → ℕ → PyState → Option ℕ × PyState) (obj key : ℕ)
        (st : PyState),
      (prim obj key st).1 = none → (prim obj key st).2.err = true →
      getitem_maybe_obj prim obj key none st = Except.error NbFail.pyerr) ∧
    (∀ (prim : ℕ → ℕ → ℕ → PyState → Option Unit × PyState) (obj : ℕ)
        (key : ℤ) (value : ℕ) (st : PyState),
      (prim obj (alloc st (PyVal.vint key)).2 value
          (alloc st (PyVal.vint key)).1).1 = none →
      (prim obj (alloc st (PyVal.vint key)).2 value
          (alloc st (PyVal.vint key)).1).2.err = true →
      setitem_int prim obj key value st = Except.error NbFail.pyerr) ∧
    (∀ (prim : ℕ → ℕ → ℕ → PyState → Option Unit × PyState) (obj : ℕ)
        (key : List Char) (value : ℕ) (st : PyState),
      (prim obj (alloc st (PyVal.vstr key)).2 value
          (alloc st (PyVal.vstr key)).1).1 = none →
      (prim obj (alloc st (PyVal.vstr key)).2 value
          (alloc st (PyVal.vstr key)).1).2.err = true →
      setitem_str prim obj key value st = Except.error NbFail.pyerr) ∧
    (∀ (prim : ℕ → ℕ → ℕ → PyState → Option Unit × PyState)
        (obj key value : ℕ) (st : PyState),
      (prim obj key value st).1 = none → (prim obj key value st).2.err = true →
      setitem_obj prim obj key value st = Except.error NbFail.pyerr) ∧
    (∀ (prim : ℕ → PyState → Option ℕ × PyState) (o : ℕ) (st : PyState),
      (prim o st).1 = none → (prim o st).2.err = true →
      str_from_obj prim o st = Except.error NbFail.pyerr) ∧
    (∀ (prim : List Char → PyState → Option ℕ × PyState) (s : List Char)
        (st : PyState),
      (prim s st).1 = none →
      str_from_cstr prim s st =
        Except.error (NbFail.runtimeError strFromCstrMsg)) ∧
    (∀ (prim : List Char → ℕ → PyState → Option ℕ × PyState) (s : List Char)
        (size : ℕ) (st : PyState),
      (prim s size st).1 = none →
      str_from_cstr_and_size prim s size st =
        Except.error (NbFail.runtimeError strFromCstrSizeMsg)) ∧
    (∀ (prim : ℕ → String → PyState → Option ℕ × PyState) (obj : ℕ)
        (key : String) (dflt : ℕ) (st : PyState),
      (prim obj key st).1 = none →
      getattr_str_default prim obj key dflt st =
        Except.ok (incref (clearerr (prim obj key st).2) dflt, dflt)) ∧
    (∀ (prim : ℕ → ℕ → PyState → Option ℕ × PyState) (obj key dflt : ℕ)
        (st : PyState),
      (prim obj key st).1 = none →
      getattr_obj_default prim obj key dflt st =
        Except.ok (incref (clearerr (prim obj key st).2) dflt, dflt)) := by
  refine ⟨?_, ?_, ?_, ?_, ?_, ?_, ?_, ?_, ?_, ?_, ?_, ?_, ?_, ?_, ?_, ?_,
    ?_, ?_, ?_, ?_, ?_, ?_⟩
  · intro p st h he
    rcases hp : p st with ⟨r, st1⟩
    rw [hp] at h he
    have he' : st1.err = true := he
    rcases r with _ | v
    · simp [obj_len, hp, python_error_raise, he']
    · simp at h
  · intro p st h he
    rcases hp : p st with ⟨r, st1⟩
    rw [hp] at h he
    have he' : st1.err = true := he
    rcases r with _ | v
    · simp [obj_repr, hp, python_error_raise, he']
    · simp at h
  · intro p st h he
    rcases hp : p st with ⟨r, st1⟩
    rw [hp] at h he
    have he' : st1.err = true := he
    rcases r with _ | v
    · simp [obj_compare, hp, python_error_raise, he']
    · simp at h
  · intro p st h he
    rcases hp : p st with ⟨r, st1⟩
    rw [hp] at h he
    have he' : st1.err = true := he
    rcases r with _ | v
    · simp [obj_op_1, hp, python_error_raise, he']
    · simp at h
  · intro p st h he
    rcases hp : p st with ⟨r, st1⟩
    rw [hp] at h he
    have he' : st1.err = true := he
    rcases r with _ | v
    · simp [obj_op_2, hp, python_error_raise, he']
    · simp at h
  · intro prim obj key st h he
    rcases hp : prim obj key st with ⟨r, st1⟩
    rw [hp] at h he
    have he' : st1.err = true := he
    rcases r with _ | v
    · simp [getattr_str, hp, python_error_raise, he']
    · simp at h
  · intro prim obj key st h he
    rcases hp : prim obj key st with ⟨r, st1⟩
    rw [hp] at h he
    have he' : st1.err = true := he
    rcases r with _ | v
    · simp [getattr_obj, hp, python_error_raise, he']
    · simp at h
  · intro prim obj key st h he
    rcases hp : prim obj key st with ⟨r, st1⟩
    rw [hp] at h he
    have he' : st1.err = true := he
    rcases r with _ | v
    · simp [getattr_maybe_str, hp, python_error_raise, he']
    · simp at h
  · intro prim obj key st h he
    rcases hp : prim obj key st with ⟨r, st1⟩
    rw [hp] at h he
    have he' : st1.err = true := he
    rcases r with _ | v
    · simp [getattr_maybe_obj, hp, python_error_raise, he']
    · simp at h
  · intro prim obj key value st h he
    rcases hp : prim obj key value st with ⟨r, st1⟩
    rw [hp] at h he
    have he' : st1.err = true := he
    rcases r with _ | v
    · simp [setattr_str, hp, python_error_raise, he']
    · simp at h
  · intro prim obj key value st h he
    rcases hp : prim obj key value st with ⟨r, st1⟩
    rw [hp] at h he
    have he' : st1.err = true := he
    rcases r with _ | v
    · simp [setattr_obj, hp, python_error_raise, he']
    · simp at h
  · intro prim obj key st h he
    rcases hp : prim obj (alloc st (PyVal.vint key)).2
        (alloc st (PyVal.vint key)).1 with ⟨r, st2⟩
    rw [hp] at h he
    have he' : st2.err = true := he
    rcases r with _ | v
    · simp [getitem_maybe_int, hp, python_error_raise, decref_err, he']
    · simp at h
  · intro prim obj key st h he
    rcases hp : prim obj (alloc st (PyVal.vstr key)).2
        (alloc st (PyVal.vstr key)).1 with ⟨r, st2⟩
    rw [hp] at h he
    have he' : st2.err = true := he
    rcases r with _ | v
    · simp [getitem_maybe_str, hp, python_error_raise, decref_err, he']
    · simp at h
  · intro prim obj key st h he
    rcases hp : prim obj key st with ⟨r, st1⟩
    rw [hp] at h he
    have he' : st1.err = true := he
    rcases r with _ | v
    · simp [getitem_maybe_obj, hp, python_error_raise, he']
    · simp at h
  · intro prim obj key value st h he
    rcases hp : prim obj (alloc st (PyVal.vint key)).2 value
        (alloc st (PyVal.vint key)).1 with ⟨r, st2⟩
    rw [hp] at h he
    have he' : st2.err = true := he
    rcases r with _ | v
    · simp [setitem_int, hp, python_error_raise, decref_err, he']
    · simp at h
  · intro prim obj key value st h he
    rcases hp : prim obj (alloc st (PyVal.vstr key)).2 value
        (alloc st (PyVal.vstr key)).1 with ⟨r, st2⟩
    rw [hp] at h he
    have he' : st2.err = true := he
    rcases r with _ | v
    · simp [setitem_str, hp, python_error_raise, decref_err, he']
    · simp at h
  · intro prim obj key value st h he
    rcases hp : prim obj key value st with ⟨r, st1⟩
    rw [hp] at h he
    have he' : st1.err = true := he
    rcases r with _ | v
    · simp [setitem_obj, hp, python_error_raise, he']
    · simp at h
  · intro prim o st h he
    rcases hp : prim o st with ⟨r, st1⟩
    rw [hp] at h he
    have he' : st1.err = true := he
    rcases r with _ | v
    · simp [str_from_obj, hp, python_error_raise, he']
    · simp at h
  · intro prim s st h
    rcases hp : prim s st with ⟨r, st1⟩
    rw [hp] at h
    rcases r with _ | v
    · simp only [str_from_cstr, hp]
      congr 1
    · simp at h
  · intro prim s size st h
    rcases hp : prim s size st with ⟨r, st1⟩
    rw [hp] at h
    rcases r with _ | v
    · simp only [str_from_cstr_and_size, hp]
      congr 1
    · simp at h
  · intro prim obj key dflt st h
    rcases hp : prim obj key st with ⟨r, st1⟩
    rw [hp] at h
    rcases r with _ | v
    · simp [getattr_str_default, hp]
    · simp at h
  · intro prim obj key dflt st h
    rcases hp : prim obj key st with ⟨r, st1⟩
    rw [hp] at h
    rcases r with _ | v
    · simp [getattr_obj_default, hp]
    · simp at h

/-- C5, witness: the length shim on an always-failing primitive throws
`python_error`; the default-value get-attribute overload on the same
failing conditions returns the default with the error cleared. -/
theorem c5_shim_error_routing_witness :
    (c5FailPrimO st0).1 = none ∧
    (c5FailPrimO st0).2.err = true ∧
    obj_len c5FailPrimO st0 = Except.error NbFail.pyerr ∧
    getattr_str_default c5FailPrimStr 7 "y" 2 st0 =
      Except.ok (incref (clearerr (c5FailPrimStr 7 "y" st0).2) 2, 2) :=
  ⟨rfl, rfl,
   c5_shim_error_routing.1 c5FailPrimO st0 rfl rfl,
   c5_shim_error_routing.2.2.2.2.2.2.2.2.2.2.2.2.2.2.2.2.2.2.2.2.1
     c5FailPrimStr 7 "y" 2 st0 rfl⟩

/-! ### The boolean and null casters, and the `NB_TYPE_CASTER` macro -/

/-- `type_caster<bool>::load`: pointer-identity comparison against the
`Py_True` / `Py_False` singletons only; `none` = load failure. -/
def boolLoad (src : ℕ) : Option Bool :=
  if src = addrTrue then some true
  else if src = addrFalse then some false
  else none

/-- `type_caster<bool>::cast`: `handle(src ? Py_True : Py_False).inc_ref()`. -/
def boolCast (b : Bool) (st : PyState) : PyState × ℕ :=
  (incref st (if b then addrTrue else addrFalse),
   if b then addrTrue else addrFalse)

/-- `type_caster<std::nullptr_t>::load`: `src && src.is_none()`. -/
def nullLoad (src : ℕ) : Bool :=
  if src ≠ 0 ∧ src = addrNone then true else false

/-- Modelled from the spec: the `none` wrapper class used by
`type_caster<std::nullptr_t>::cast` (`return none().inc_ref();`) is not in
the provided sources.  Per §4.1 of the spec, constructing the owning wrapper
acquires the empty singleton (+1), `inc_ref()` acquires it again, and the
temporary wrapper's destruction releases it once — a net `+1` on the
singleton, whose address is returned. -/
def nullCast (st : PyState) : PyState × ℕ :=
  (decref (incref (incref st addrNone) addrNone) addrNone, addrNone)

/-- C8: the boolean caster's `load` succeeds exactly on the two canonical
boolean singletons (storing the matching native boolean) and fails on every
other value — no truthiness coercion; the null caster's `load` succeeds
exactly on the empty singleton; each `cast` returns the corresponding
singleton with its reference count incremented by one. -/
theorem c8_bool_null_strictness :
    (∀ src : ℕ, (boolLoad src).isSome ↔ (src = addrTrue ∨ src = addrFalse)) ∧
    boolLoad addrTrue = some true ∧
    boolLoad addrFalse = some false ∧
    (∀ src : ℕ, nullLoad src = true ↔ src = addrNone) ∧
    (∀ (b : Bool) (st : PyState),
      live st addrTrue → live st addrFalse →
      (boolCast b st).2 = (if b then addrTrue else addrFalse) ∧
      rcOf (boolCast b st).1 (if b then addrTrue else addrFalse) =
        rcOf st (if b then addrTrue else addrFalse) + 1) ∧
    (∀ st : PyState, live st addrNone →
      (nullCast st).2 = addrNone ∧
      rcOf (nullCast st).1 addrNone = rcOf st addrNone + 1) := by
  refine ⟨?_, rfl, rfl, ?_, ?_, ?_⟩
  · intro src
    unfold boolLoad
    split_ifs with h1 h2
    · simp [h1]
    · simp [h2]
    · simp [h1, h2]
  · intro src
    unfold nullLoad
    split_ifs with h1
    · simp [h1.2]
    · constructor
      · intro hc
        exact absurd hc (by decide)
      · intro hc
        exact absurd ⟨by rw [hc]; decide, hc⟩ h1
  · intro b st ht hf
    cases b
    · refine ⟨rfl, ?_⟩
      rw [show (boolCast false st).1 = incref st addrFalse from rfl,
        rcOf_incref, if_pos ⟨rfl, hf⟩]
    · refine ⟨rfl, ?_⟩
      rw [show (boolCast true st).1 = incref st addrTrue from rfl,
        rcOf_incref, if_pos ⟨rfl, ht⟩]
  · intro st hn
    refine ⟨rfl, ?_⟩
    have h1 : live (incref st addrNone) addrNone := by
      unfold live at hn ⊢
      rw [heapLen_incref]
      exact hn
    rw [show (nullCast st).1 =
        decref (incref (incref st addrNone) addrNone) addrNone from rfl,
      rcOf_decref, if_pos rfl, rcOf_incref, if_pos ⟨rfl, h1⟩,
      rcOf_incref, if_pos ⟨rfl, hn⟩]
    omega

/-- C8, witness: on the concrete state `st0`, loading the singletons,
rejecting a non-boolean, and the reference-count effects of both casts. -/
theorem c8_bool_null_strictness_witness :
    boolLoad addrTrue = some true ∧
    (boolLoad 4).isSome = false ∧
    (nullLoad addrNone = true ↔ addrNone = addrNone) ∧
    rcOf (boolCast true st0).1 addrTrue = rcOf st0 addrTrue + 1 ∧
    rcOf (nullCast st0).1 addrNone = rcOf st0 addrNone + 1 :=
  ⟨rfl, by decide,
   c8_bool_null_strictness.2.2.2.1 addrNone,
   (c8_bool_null_strictness.2.2.2.2.1 true st0 (by decide) (by decide)).2,
   (c8_bool_null_strictness.2.2.2.2.2 st0 (by decide)).2⟩

/-- `none().release()` from the `NB_TYPE_CASTER` macro.  Modelled from the
spec: the owning `none` wrapper acquires the empty singleton (+1, §4.1) and
`release()` relinquishes ownership without decrementing, so the caller
receives a valid owning reference to the singleton. -/
def noneRelease (st : PyState) : PyState × ℕ :=
  (incref st addrNone, addrNone)

/-- The `cast(type *p, rv_policy, handle)` overload generated by the
`NB_TYPE_CASTER` macro, parametric in the caster's value overload: a null
pointer yields `none().release()`, any other pointer dereferences and
delegates. -/
def nb_cast_ptr {α : Type}
    (castVal : α → rv_policy → ℕ → PyState → PyState × ℕ)
    (p : Option α) (policy : rv_policy) (parent : ℕ) (st : PyState) :
    PyState × ℕ :=
  match p with
  | none => noneRelease st
  | some v => castVal v policy parent st

/-- C10: for every caster built with the `NB_TYPE_CASTER` macro (numeric,
boolean, null, pair, handle-subtype — the macro's pointer overload is the
same for all of them, here parametric in the value overload), casting a null
native pointer returns the empty singleton as a valid released owning
reference (+1 on its count), never an invalid reference, for every policy
and parent. -/
theorem c10_null_pointer_cast (α : Type)
    (castVal : α → rv_policy → ℕ → PyState → PyState × ℕ)
    (policy : rv_policy) (parent : ℕ) (st : PyState)
    (hn : live st addrNone) :
    (nb_cast_ptr castVal none policy parent st).2 = addrNone ∧
    (nb_cast_ptr castVal none policy parent st).2 ≠ 0 ∧
    rcOf (nb_cast_ptr castVal none policy parent st).1 addrNone =
      rcOf st addrNone + 1 := by
  refine ⟨rfl, ?_, ?_⟩
  · show addrNone ≠ 0
    decide
  · rw [show (nb_cast_ptr castVal none policy parent st).1 =
        incref st addrNone from rfl,
      rcOf_incref, if_pos ⟨rfl, hn⟩]

/-- C10, witness: instantiated with the boolean caster's value overload on
the concrete state `st0`. -/
theorem c10_null_pointer_cast_witness :
    live st0 addrNone ∧
    (nb_cast_ptr (fun (b : Bool) _ _ s => boolCast b s)
      none rv_policy.automatic 0 st0).2 = addrNone ∧
    rcOf (nb_cast_ptr (fun (b : Bool) _ _ s => boolCast b s)
      none rv_policy.automatic 0 st0).1 addrNone = rcOf st0 addrNone + 1 :=
  ⟨by decide,
   (c10_null_pointer_cast Bool (fun b _ _ s => boolCast b s)
     rv_policy.automatic 0 st0 (by decide)).1,
   (c10_null_pointer_cast Bool (fun b _ _ s => boolCast b s)
     rv_policy.automatic 0 st0 (by decide)).2.2⟩

end NB
